import Mathlib

/-!
# Spatial equality of geometries

A shallow embedding of `boost/geometry/algorithms/equals.hpp` (the strategies
`box_box`, `area_check`, `length_check`, `equals_by_collection`, the tag dispatch
`dispatch::equals`, `dispatch::equals_reversed` and the free function `equals`) and of
`boost/geometry/algorithms/not_implemented.hpp`.

Template parameters become ordinary arguments. Headers that `equals.hpp` includes but that
are not part of the sources at hand (`util/math.hpp`, `algorithms/area.hpp`,
`algorithms/length.hpp`, `algorithms/detail/equals/collect_vectors.hpp`) are taken as
arguments: the coordinate comparison `math::equals`, the measures `area` and `length`,
`collect_vectors` and the two operators of `collected_vector`. Where a property depends on
how `collect_vectors` cuts a geometry into straight runs, that part is modelled from the
spec (`spec_collect_vectors`) and the property is proved for every `collect_vectors` of that
form.
-/

set_option linter.unusedVariables false

namespace BoostGeometry

/-- Coordinate access `get<D>(p)`: a point is read one dimension at a time. -/
abbrev Point (α : Type) := Nat → α

/-- A box, read through `get<min_corner, D>(box)` and `get<max_corner, D>(box)`. -/
structure Box (α : Type) where
  min_corner : Point α
  max_corner : Point α

/-- The two-dimensional point `(x y)`, as the WKT reader of the tests builds it. -/
def xy {α : Type} (x y : α) : Point α := fun d => if d = 0 then x else y

/-- Modelled from the spec: `math::equals` (`util/math.hpp` is not among the sources) at an
integer coordinate type, where the equality of coordinates is "exact for integer types". -/
def math_equals_exact (a b : Int) : Bool := a == b

namespace detail.equals

/-- `detail::equals::box_box<Box1, Box2, Dimension, DimensionCount>::apply`.
The template recursion runs from `Dimension` up to `DimensionCount`; `remaining` stands for
`DimensionCount - Dimension`, so that `remaining = 0` is the terminating specialisation
`box_box<Box1, Box2, DimensionCount, DimensionCount>`. -/
def box_box {α : Type} (math_equals : α → α → Bool) (box1 box2 : Box α) : Nat → Nat → Bool
  | _, 0 => true
  | Dimension, remaining + 1 =>
    if !math_equals (box1.min_corner Dimension) (box2.min_corner Dimension)
        || !math_equals (box1.max_corner Dimension) (box2.max_corner Dimension) then
      false
    else
      box_box math_equals box1 box2 (Dimension + 1) remaining

/-- `std::sort` inserts with `operator<` only. It is modelled by an insertion sort: `x` goes
in front of the first element it is less than. -/
def sort_insert {V : Type} (lt : V → V → Bool) (x : V) : List V → List V
  | [] => [x]
  | y :: ys => if lt x y then x :: y :: ys else y :: sort_insert lt x ys

/-- `std::sort(c.begin(), c.end())` with the element type's `operator<`. -/
def std_sort {V : Type} (lt : V → V → Bool) (c : List V) : List V :=
  c.foldr (sort_insert lt) []

/-- `std::equal(first1, last1, first2)` with the element type's `operator==`: the first range
is walked and each element is compared with the element at the same place of the second
range. The caller has compared the sizes; a second range that ends early is outside the
contract of `std::equal` and is answered `false` here. -/
def std_equal {V : Type} (eq : V → V → Bool) : List V → List V → Bool
  | [], _ => true
  | _ :: _, [] => false
  | a :: as, b :: bs => eq a b && std_equal eq as bs

/-- `detail::equals::equals_by_collection<Geometry1, Geometry2, TrivialCheck>::apply`.
`collect_vectors1` and `collect_vectors2` are `geometry::collect_vectors` at the two geometry
types, `lt` and `eq` are `operator<` and `operator==` of `collected_vector`. -/
def equals_by_collection {G1 G2 V : Type} (TrivialCheck : G1 → G2 → Bool)
    (collect_vectors1 : G1 → List V) (collect_vectors2 : G2 → List V)
    (lt eq : V → V → Bool) (geometry1 : G1) (geometry2 : G2) : Bool :=
  if !TrivialCheck geometry1 geometry2 then
    false
  else
    let c1 := collect_vectors1 geometry1
    let c2 := collect_vectors2 geometry2
    if c1.length != c2.length then
      false
    else
      let c1 := std_sort lt c1
      let c2 := std_sort lt c2
      c1.length == c2.length && std_equal eq c1 c2

/-- `detail::equals::area_check::apply`. `area1` and `area2` are `geometry::area` at the two
geometry types, `math_equals` is `math::equals` at the type `area` returns. -/
def area_check {G1 G2 M : Type} (math_equals : M → M → Bool) (area1 : G1 → M) (area2 : G2 → M)
    (geometry1 : G1) (geometry2 : G2) : Bool :=
  math_equals (area1 geometry1) (area1 geometry1)

/-- `detail::equals::length_check::apply`. `length1` and `length2` are `geometry::length` at
the two geometry types, `math_equals` is `math::equals` at the type `length` returns. -/
def length_check {G1 G2 M : Type} (math_equals : M → M → Bool) (length1 : G1 → M)
    (length2 : G2 → M) (geometry1 : G1) (geometry2 : G2) : Bool :=
  math_equals (length1 geometry1) (length1 geometry1)

end detail.equals

namespace detail.disjoint

/-- Modelled from the spec: `detail::disjoint::point_point<P1, P2, Dimension, DimensionCount>`
of `algorithms/detail/disjoint.hpp`, which is not among the sources. Point equality is
"defined per-dimension via tolerance-based coordinate comparison across all dimensions
(logical AND)" and is the negation of this test, so two points are disjoint as soon as the
coordinates of one dimension differ. `remaining` is `DimensionCount - Dimension`. -/
def point_point {α : Type} (math_equals : α → α → Bool) (p1 p2 : Point α) : Nat → Nat → Bool
  | _, 0 => false
  | Dimension, remaining + 1 =>
    if !math_equals (p1 Dimension) (p2 Dimension) then
      true
    else
      point_point math_equals p1 p2 (Dimension + 1) remaining

end detail.disjoint

namespace detail

/-- Modelled from the spec: `detail::not_<Geometry1, Geometry2, Policy>::apply` of
`algorithms/detail/not.hpp`, which is not among the sources: point equality is
"implemented as the negation of a disjointness test". -/
def not_ {G1 G2 : Type} (Policy : G1 → G2 → Bool) (geometry1 : G1) (geometry2 : G2) : Bool :=
  !Policy geometry1 geometry2

end detail

/-! ## Geometries, tags and the outcome of a call -/

/-- The geometry tags, as `nyi::tag_to_term` lists them. -/
inductive Tag
  | geometry_not_recognized_tag
  | point_tag
  | linestring_tag
  | polygon_tag
  | ring_tag
  | box_tag
  | segment_tag
  | multi_point_tag
  | multi_linestring_tag
  | multi_polygon_tag
  | geometry_collection_tag
  deriving DecidableEq, Repr

/-- The vertices and corners a geometry of each kind gives access to. -/
inductive Shape (α : Type)
  | point (p : Point α)
  | linestring (points : List (Point α))
  | polygon (outer : List (Point α)) (inners : List (List (Point α)))
  | ring (points : List (Point α))
  | box (b : Box α)
  | segment (first second : Point α)
  | multi_point (points : List (Point α))
  | multi_linestring (members : List (List (Point α)))
  | multi_polygon (members : List (List (Point α) × List (List (Point α))))

/-- A geometry value together with `dimension<Geometry>::value`, which in the library is a
property of the geometry's type. -/
structure Geometry (α : Type) where
  dimension : Nat
  shape : Shape α

/-- Modelled from the spec: `tag<Geometry>::type` (`core/tag.hpp` is not among the sources):
every geometry value carries a kind tag. -/
def tag {α : Type} (g : Geometry α) : Tag :=
  match g.shape with
  | .point _ => .point_tag
  | .linestring _ => .linestring_tag
  | .polygon _ _ => .polygon_tag
  | .ring _ => .ring_tag
  | .box _ => .box_tag
  | .segment _ _ => .segment_tag
  | .multi_point _ => .multi_point_tag
  | .multi_linestring _ => .multi_linestring_tag
  | .multi_polygon _ => .multi_polygon_tag

/-- Modelled from the spec: `is_multi<Geometry>::value` (`core/is_multi.hpp` is not among the
sources): the multiplicity flag of a geometry, set for the multi-part variants. -/
def is_multi {α : Type} (g : Geometry α) : Bool :=
  match g.shape with
  | .multi_point _ => true
  | .multi_linestring _ => true
  | .multi_polygon _ => true
  | _ => false

/-- A class derived from `algorithm_tag`; `what` is the text its `what()` returns
(`BOOST_GEOMETRY_REGISTER_ALGORITHM(Algo)` makes it the name of the algorithm). -/
structure algorithm_tag where
  what : String
  deriving DecidableEq, Repr

/-- A template argument of `not_implemented`. -/
inductive Arg
  | void
  | algorithm (t : algorithm_tag)
  | geometry (t : Tag)
  /-- `boost::mpl::int_<D>`. -/
  | int_ (D : Int)
  deriving DecidableEq, Repr

/-- The terms an assertion shows: the classes of `namespace info`, or the argument itself
where `nyi::tag_to_term` has no specialisation. -/
inductive Term
  | UNRECOGNIZED_GEOMETRY_TYPE
  | POINT
  | LINESTRING
  | POLYGON
  | RING
  | BOX
  | SEGMENT
  | MULTI_POINT
  | MULTI_LINESTRING
  | MULTI_POLYGON
  | GEOMETRY_COLLECTION
  | DIMENSION (D : Int)
  | unchanged (a : Arg)
  deriving DecidableEq, Repr

/-- Why a call is rejected when the program is built. -/
inductive BuildError
  /-- The assertion of `concept::check_concepts_and_equal_dimensions` fails. -/
  | dimensions_differ
  /-- The class selected by the dispatch has no member `apply`. -/
  | no_member_apply
  /-- A geometry does not model the concept its tag stands for. -/
  | concept_check
  /-- `BOOST_MPL_ASSERT_MSG` fails with `THIS_OPERATION_IS_NOT_OR_NOT_YET_IMPLEMENTED` and
  `types<Term1, Term2, Term3>`. -/
  | THIS_OPERATION_IS_NOT_OR_NOT_YET_IMPLEMENTED (Term1 Term2 Term3 : Term)
  /-- `not_implemented_runtime_error` has no constructor without arguments. -/
  | no_matching_constructor
  deriving DecidableEq, Repr

/-- What a call comes to: a value, a rejection at build time, or an exception
(`not_implemented_runtime_error` with its `what()` text). -/
inductive Outcome
  | value (b : Bool)
  | build_error (e : BuildError)
  | runtime_error (what : String)
  deriving DecidableEq, Repr

/-- The collaborators of `equals.hpp` whose headers are not among the sources, at one
coordinate type `α`: `math::equals` on coordinates and on measures (`M` is the type `area` and
`length` return), `geometry::area`, `geometry::length`, `geometry::collect_vectors`, and
`operator<` and `operator==` of `collected_vector` (`V`). -/
structure Collaborators (α M V : Type) where
  coordinate_equals : α → α → Bool
  measure_equals : M → M → Bool
  area : Geometry α → M
  length : Geometry α → M
  collect_vectors : Geometry α → List V
  lt : V → V → Bool
  eq : V → V → Bool

/-! ## Dispatch -/

/-- The `TrivialCheck` argument of `equals_by_collection`. -/
inductive TrivialCheck
  | area_check
  | length_check
  deriving DecidableEq, Repr

/-- The base classes the specialisations of `dispatch::equals` derive from. -/
inductive Strategy
  /-- `detail::not_<P1, P2, detail::disjoint::point_point<P1, P2, 0, DimensionCount>>`. -/
  | not_disjoint_point_point
  /-- `detail::equals::box_box<Box1, Box2, 0, DimensionCount>`. -/
  | box_box
  /-- `detail::equals::equals_by_collection<Geometry1, Geometry2, check>`. -/
  | equals_by_collection (check : TrivialCheck)
  deriving DecidableEq, Repr

/-- The `apply` of a trivial check. -/
def TrivialCheck.apply {α M V : Type} (E : Collaborators α M V) :
    TrivialCheck → Geometry α → Geometry α → Bool
  | .area_check => detail.equals.area_check E.measure_equals E.area E.area
  | .length_check => detail.equals.length_check E.measure_equals E.length E.length

/-- The `apply` a specialisation of `dispatch::equals` inherits from its base class, at
`DimensionCount`. The point and box strategies read coordinates, so their operands have to
be points and boxes. -/
def Strategy.apply {α M V : Type} (E : Collaborators α M V) (DimensionCount : Nat) :
    Strategy → Geometry α → Geometry α → Outcome
  | .not_disjoint_point_point, g1, g2 =>
    match g1.shape, g2.shape with
    | .point p1, .point p2 =>
      .value (detail.not_
        (fun q1 q2 => detail.disjoint.point_point E.coordinate_equals q1 q2 0 DimensionCount)
        p1 p2)
    | _, _ => .build_error .concept_check
  | .box_box, g1, g2 =>
    match g1.shape, g2.shape with
    | .box box1, .box box2 =>
      .value (detail.equals.box_box E.coordinate_equals box1 box2 0 DimensionCount)
    | _, _ => .build_error .concept_check
  | .equals_by_collection check, g1, g2 =>
    .value (detail.equals.equals_by_collection (check.apply E)
      E.collect_vectors E.collect_vectors E.lt E.eq g1 g2)

namespace dispatch

/-- Which specialisation of `dispatch::equals<Tag1, Tag2, IsMulti1, IsMulti2, Geometry1,
Geometry2, DimensionCount>` is selected, `none` standing for the primary template. -/
def registry (Tag1 Tag2 : Tag) (IsMulti1 IsMulti2 : Bool) (DimensionCount : Nat) :
    Option Strategy :=
  match Tag1, Tag2, IsMulti1, IsMulti2 with
  | .point_tag, .point_tag, false, false => some .not_disjoint_point_point
  | .box_tag, .box_tag, false, false => some .box_box
  | .ring_tag, .ring_tag, false, false =>
    if DimensionCount = 2 then some (.equals_by_collection .area_check) else none
  | .polygon_tag, .polygon_tag, false, false =>
    if DimensionCount = 2 then some (.equals_by_collection .area_check) else none
  | .linestring_tag, .linestring_tag, false, false =>
    if DimensionCount = 2 then some (.equals_by_collection .length_check) else none
  | .polygon_tag, .ring_tag, false, false =>
    if DimensionCount = 2 then some (.equals_by_collection .area_check) else none
  | .ring_tag, .box_tag, false, false =>
    if DimensionCount = 2 then some (.equals_by_collection .area_check) else none
  | .polygon_tag, .box_tag, false, false =>
    if DimensionCount = 2 then some (.equals_by_collection .area_check) else none
  | _, _, _, _ => none

/-- `dispatch::equals<Tag1, Tag2, IsMulti1, IsMulti2, Geometry1, Geometry2,
DimensionCount>::apply(g1, g2)`. The primary template is an empty class: selecting it leaves
the call without an `apply`. -/
def equals {α M V : Type} (E : Collaborators α M V) (Tag1 Tag2 : Tag)
    (IsMulti1 IsMulti2 : Bool) (DimensionCount : Nat) (g1 g2 : Geometry α) : Outcome :=
  match registry Tag1 Tag2 IsMulti1 IsMulti2 DimensionCount with
  | some strategy => strategy.apply E DimensionCount g1 g2
  | none => .build_error .no_member_apply

/-- `dispatch::equals_reversed<Tag1, Tag2, IsMulti1, IsMulti2, Geometry1, Geometry2,
DimensionCount>::apply(g1, g2)`. -/
def equals_reversed {α M V : Type} (E : Collaborators α M V) (Tag1 Tag2 : Tag)
    (IsMulti1 IsMulti2 : Bool) (DimensionCount : Nat) (g1 g2 : Geometry α) : Outcome :=
  equals E Tag2 Tag1 IsMulti2 IsMulti1 DimensionCount g2 g1

end dispatch

/-- Modelled from the spec: `reverse_dispatch<Geometry1, Geometry2>::type::value`
(`core/reverse_dispatch.hpp` is not among the sources): "if the exact `(tag1, tag2)` ordering
is not registered but the reversed ordering `(tag2, tag1)` is, the resolver selects the
reversed strategy and swaps the argument order before invocation". -/
def reverse_dispatch {α : Type} (geometry1 geometry2 : Geometry α) : Bool :=
  (dispatch.registry (tag geometry1) (tag geometry2) (is_multi geometry1) (is_multi geometry2)
      geometry1.dimension).isNone
    && (dispatch.registry (tag geometry2) (tag geometry1) (is_multi geometry2)
      (is_multi geometry1) geometry1.dimension).isSome

namespace concept

/-- Modelled from the spec: `concept::check_concepts_and_equal_dimensions<Geometry1 const,
Geometry2 const>()` (`geometries/concepts/check.hpp` is not among the sources): the
"dimensionality of both operands in a comparison must match", a violation being rejected
"at entry, not inside the algorithm". The result is the build error, if any. -/
def check_concepts_and_equal_dimensions {α : Type} (geometry1 geometry2 : Geometry α) :
    Option BuildError :=
  if geometry1.dimension = geometry2.dimension then none else some .dimensions_differ

end concept

/-- The free function `equals(geometry1, geometry2)`. -/
def equals {α M V : Type} (E : Collaborators α M V) (geometry1 geometry2 : Geometry α) :
    Outcome :=
  match concept.check_concepts_and_equal_dimensions geometry1 geometry2 with
  | some e => .build_error e
  | none =>
    if reverse_dispatch geometry1 geometry2 then
      dispatch.equals_reversed E (tag geometry1) (tag geometry2) (is_multi geometry1)
        (is_multi geometry2) geometry1.dimension geometry1 geometry2
    else
      dispatch.equals E (tag geometry1) (tag geometry2) (is_multi geometry1)
        (is_multi geometry2) geometry1.dimension geometry1 geometry2

/-! ## `not_implemented.hpp` -/

/-- The switches of a build: the value of `BOOST_GEOMETRY_IMPLEMENTATION_STATUS_BUILD` and the
tags for which `BOOST_GEOMETRY_NYI_RUNTIME_ERROR(Tag)` specialises the policy. -/
structure BuildConfig where
  IMPLEMENTATION_STATUS_BUILD : Bool
  NYI_RUNTIME_ERROR : List Arg

/-- `not_implemented_policy<T>::value`. -/
def not_implemented_policy (cfg : BuildConfig) (T : Arg) : Bool :=
  if T ∈ cfg.NYI_RUNTIME_ERROR then true else cfg.IMPLEMENTATION_STATUS_BUILD

namespace nyi

/-- `nyi::tag_to_term<Tag>::type`. -/
def tag_to_term : Arg → Term
  | .geometry .geometry_not_recognized_tag => .UNRECOGNIZED_GEOMETRY_TYPE
  | .geometry .point_tag => .POINT
  | .geometry .linestring_tag => .LINESTRING
  | .geometry .polygon_tag => .POLYGON
  | .geometry .ring_tag => .RING
  | .geometry .box_tag => .BOX
  | .geometry .segment_tag => .SEGMENT
  | .geometry .multi_point_tag => .MULTI_POINT
  | .geometry .multi_linestring_tag => .MULTI_LINESTRING
  | .geometry .multi_polygon_tag => .MULTI_POLYGON
  | .geometry .geometry_collection_tag => .GEOMETRY_COLLECTION
  | .int_ D => .DIMENSION D
  | a => .unchanged a

/-- `nyi::not_implemented_error<Tag, Term1, Term2, Term3>::apply(args...)`, `Tag = none`
being the specialisation for `void`. The class asserts its policy when it is instantiated;
past the assertion, `apply` throws. The `void` specialisation throws
`not_implemented_runtime_error()`, for which the exception class has no constructor. -/
def not_implemented_error (cfg : BuildConfig) (Tag : Option algorithm_tag)
    (Term1 Term2 Term3 : Term) : Outcome :=
  match Tag with
  | some t =>
    if not_implemented_policy cfg (.algorithm t) then
      .runtime_error (t.what ++ " is not implemented for the given parameters")
    else
      .build_error (.THIS_OPERATION_IS_NOT_OR_NOT_YET_IMPLEMENTED Term1 Term2 Term3)
  | none =>
    if cfg.IMPLEMENTATION_STATUS_BUILD then
      .build_error .no_matching_constructor
    else
      .build_error (.THIS_OPERATION_IS_NOT_OR_NOT_YET_IMPLEMENTED Term1 Term2 Term3)

end nyi

/-- `not_implemented<Term1, Term2, Term3, Term4>::apply(args...)`: the base class is chosen
by whether `Term1` is derived from `algorithm_tag`. -/
def not_implemented (cfg : BuildConfig) (Term1 Term2 Term3 Term4 : Arg) : Outcome :=
  match Term1 with
  | .algorithm t =>
    nyi.not_implemented_error cfg (some t)
      (nyi.tag_to_term Term2) (nyi.tag_to_term Term3) (nyi.tag_to_term Term4)
  | _ =>
    nyi.not_implemented_error cfg none
      (nyi.tag_to_term Term1) (nyi.tag_to_term Term2) (nyi.tag_to_term Term3)

/-- The tag `BOOST_GEOMETRY_REGISTER_ALGORITHM(equals)` defines. -/
def equals_tag : algorithm_tag := ⟨"equals"⟩

/-! ## Exact collaborators on integer coordinates

A computable choice of the collaborators, used to run the dispatch on the geometries of the
tests: coordinates are integers compared with `==`, measures are rationals compared with
`==`, and every edge is collected with its start point and its coordinate differences. -/

/-- An edge: the start point `x y` and the differences `dx dy` to the end point. -/
structure Edge where
  x : Int
  y : Int
  dx : Int
  dy : Int
  deriving DecidableEq, Repr

/-- The edges between consecutive vertices. -/
def edges (points : List (Point Int)) : List Edge :=
  List.zipWith (fun p q => ⟨p 0, p 1, q 0 - p 0, q 1 - p 1⟩) points points.tail

/-- Lexicographic order on edges. -/
def Edge.lt (a b : Edge) : Bool :=
  if a.x = b.x then
    if a.y = b.y then
      if a.dx = b.dx then decide (a.dy < b.dy) else decide (a.dx < b.dx)
    else decide (a.y < b.y)
  else decide (a.x < b.x)

/-- The closed vertex sequence around a box. -/
def box_corners (b : Box Int) : List (Point Int) :=
  [xy (b.min_corner 0) (b.min_corner 1), xy (b.min_corner 0) (b.max_corner 1),
   xy (b.max_corner 0) (b.max_corner 1), xy (b.max_corner 0) (b.min_corner 1),
   xy (b.min_corner 0) (b.min_corner 1)]

/-- Modelled from the spec: the area of a ring (`algorithms/area.hpp` is not among the
sources), the "signed area" by the "polygon shoelace formula, sign resolved by winding
convention": clockwise rings count positive. -/
def ring_area (points : List (Point Int)) : ℚ :=
  ((List.zipWith (fun p q => q 0 * p 1 - p 0 * q 1) points points.tail).sum : Int) / 2

/-- The length of a vertex sequence all of whose edges are parallel to a coordinate axis:
with one difference zero, the length of an edge is `|dx| + |dy|`. -/
def axis_parallel_length (points : List (Point Int)) : ℚ :=
  (((edges points).map (fun e => |e.dx| + |e.dy|)).sum : Int)

/-- The area of a geometry: the signed areas of its rings, added up. -/
def exact_area (g : Geometry Int) : ℚ :=
  match g.shape with
  | .ring points => ring_area points
  | .polygon outer inners => ring_area outer + (inners.map ring_area).sum
  | .box b => ring_area (box_corners b)
  | .multi_polygon members =>
    (members.map (fun m => ring_area m.1 + (m.2.map ring_area).sum)).sum
  | _ => 0

/-- The length of a geometry with axis-parallel edges. -/
def exact_length (g : Geometry Int) : ℚ :=
  match g.shape with
  | .linestring points => axis_parallel_length points
  | .segment first second => axis_parallel_length [first, second]
  | .multi_linestring members => (members.map axis_parallel_length).sum
  | _ => 0

/-- The edges of a geometry, ring by ring. -/
def collect_edges (g : Geometry Int) : List Edge :=
  match g.shape with
  | .linestring points => edges points
  | .ring points => edges points
  | .polygon outer inners => edges outer ++ (inners.map edges).flatten
  | .box b => edges (box_corners b)
  | .segment first second => edges [first, second]
  | .multi_linestring members => (members.map edges).flatten
  | .multi_polygon members => (members.map (fun m => edges m.1 ++ (m.2.map edges).flatten)).flatten
  | _ => []

/-- The exact collaborators. -/
def exact_collaborators : Collaborators Int ℚ Edge where
  coordinate_equals := math_equals_exact
  measure_equals := fun a b => a == b
  area := exact_area
  length := exact_length
  collect_vectors := collect_edges
  lt := Edge.lt
  eq := fun a b => a == b

/-- The ring of the tests, `POLYGON((0 0,0 2,2 2,0 0))`. -/
def case_p1 : List (Point Int) := [xy 0 0, xy 0 2, xy 2 2, xy 0 0]

/-! ## The decomposition into directed vectors, as far as the spec fixes it

`collect_vectors.hpp` is not among the sources. The spec fixes how a vertex sequence is cut
into straight runs (zero-length edges are left out, consecutive collinear segments are
merged) and how the vectors of the rings of a polygon and of the members of a multi-geometry
are put together. What a directed vector records of a run, its measure and its direction,
is left to the implementer; it is an argument here. Coordinates are integers, so that
collinearity is decided exactly. -/

/-- A straight piece of a curve, from one vertex to another; a vertex is given by its two
coordinates. -/
structure Run where
  start : Int × Int
  finish : Int × Int
  deriving DecidableEq, Repr

/-- The coordinate differences from the start of a run to its end. -/
def Run.vector (r : Run) : Int × Int :=
  (r.finish.1 - r.start.1, r.finish.2 - r.start.2)

/-- Two vectors point the same way: they are collinear and their dot product is positive. -/
def same_direction (u v : Int × Int) : Bool :=
  decide (u.1 * v.2 - u.2 * v.1 = 0) && decide (0 < u.1 * v.1 + u.2 * v.2)

/-- Modelled from the spec: the walk over "consecutive vertex pairs" of `collect_vectors`
(`algorithms/detail/equals/collect_vectors.hpp` is not among the sources), with "zero-length
edges" handled "by excluding them from the collected sequence". -/
def nonzero_edges : List (Point Int) → List Run
  | p :: q :: rest =>
    if (p 0, p 1) = (q 0, q 1) then nonzero_edges (q :: rest)
    else ⟨(p 0, p 1), (q 0, q 1)⟩ :: nonzero_edges (q :: rest)
  | _ => []

/-- Modelled from the spec: one step of the merge of `collect_vectors`, which "must merge
consecutive collinear segments into one directed vector": a segment that points the same way
as the run after it is joined to that run. -/
def merge_run (s : Run) : List Run → List Run
  | [] => [s]
  | t :: rest =>
    if same_direction s.vector t.vector then ⟨s.start, t.finish⟩ :: rest else s :: t :: rest

/-- Modelled from the spec: the straight runs of a vertex sequence, the non-degenerate edges
with consecutive collinear ones merged, in their order along the sequence. -/
def straight_runs (points : List (Point Int)) : List Run :=
  (nonzero_edges points).foldr merge_run []

/-- Modelled from the spec: `geometry::collect_vectors`
(`algorithms/detail/equals/collect_vectors.hpp` is not among the sources). A ring or a
linestring gives the directed vectors of its straight runs; "for polygons concatenate
outer-ring vectors with every hole's vectors"; "for multi-geometries, concatenate each
member's vectors". `ring_vectors` and `linestring_vectors` turn the straight runs of one
vertex sequence into its directed vectors, and `other` stands for the kinds the spec is
silent on. -/
def spec_collect_vectors {V : Type} (ring_vectors linestring_vectors : List Run → List V)
    (other : Geometry Int → List V) (g : Geometry Int) : List V :=
  match g.shape with
  | .linestring points => linestring_vectors (straight_runs points)
  | .ring points => ring_vectors (straight_runs points)
  | .polygon outer inners =>
    ring_vectors (straight_runs outer)
      ++ (inners.map (fun inner => ring_vectors (straight_runs inner))).flatten
  | .multi_linestring members =>
    (members.map (fun member => linestring_vectors (straight_runs member))).flatten
  | .multi_polygon members =>
    (members.map (fun member =>
      ring_vectors (straight_runs member.1)
        ++ (member.2.map (fun inner => ring_vectors (straight_runs inner))).flatten)).flatten
  | _ => other g

/-- The vertex `m` lies on the straight segment between the vertices `p` and `q` (the ends
included): the three are collinear and each coordinate of `m` is between those of `p` and
`q`. -/
def on_segment (p q m : Point Int) : Bool :=
  decide ((m 0 - p 0) * (q 1 - p 1) - (m 1 - p 1) * (q 0 - p 0) = 0)
    && decide ((p 0 ≤ m 0 ∧ m 0 ≤ q 0) ∨ (q 0 ≤ m 0 ∧ m 0 ≤ p 0))
    && decide ((p 1 ≤ m 1 ∧ m 1 ≤ q 1) ∨ (q 1 ≤ m 1 ∧ m 1 ≤ p 1))

/-- The vertex sequence `G'` is `G` with one redundant vertex more: a vertex on the straight
segment between two consecutive vertices of `G`, or a vertex of `G` a second time. -/
def redundant_vertex_inserted (G G' : List (Point Int)) : Prop :=
  (∃ A B p q m, on_segment p q m = true ∧ G = A ++ p :: q :: B ∧ G' = A ++ p :: m :: q :: B)
    ∨ (∃ A B p, G = A ++ p :: B ∧ G' = A ++ p :: p :: B)

/-- What `std::sort` asks of `operator<`, a strict weak ordering, together with
`operator==` holding exactly between the elements that `operator<` does not tell apart. -/
structure strict_weak_order {V : Type} (lt eq : V → V → Bool) : Prop where
  irrefl : ∀ a, lt a a = false
  trans : ∀ a b c, lt a b = true → lt b c = true → lt a c = true
  incomparable_trans : ∀ a b c, lt a b = false → lt b a = false → lt b c = false →
    lt c b = false → lt a c = false ∧ lt c a = false
  eq_iff : ∀ a b, eq a b = (!lt a b && !lt b a)

/-- A directed vector for a run, for the exact collaborators: the start of the run and the
coordinate differences to its end. -/
def run_edge (r : Run) : Edge := ⟨r.start.1, r.start.2, r.vector.1, r.vector.2⟩

/-- The exact collaborators with `collect_vectors` following the decomposition into straight
runs. -/
def run_collaborators : Collaborators Int ℚ Edge where
  coordinate_equals := math_equals_exact
  measure_equals := fun a b => a == b
  area := exact_area
  length := exact_length
  collect_vectors := spec_collect_vectors (List.map run_edge) (List.map run_edge) collect_edges
  lt := Edge.lt
  eq := fun a b => a == b

/-! ## The comparison without a pre-check, and the calls of the dispatch -/

/-- The vector-collection comparison in the words of the spec, without the trivial check
(steps 2 to 5 of `equalsByCollection`): decompose each geometry, "if the two resulting
sequences differ in length (vector count), return false", sort both sequences, and "return
true iff sorted sequences compare element-wise equal". -/
def vector_collection_comparison {G1 G2 V : Type} (collect_vectors1 : G1 → List V)
    (collect_vectors2 : G2 → List V) (lt eq : V → V → Bool) (geometry1 : G1)
    (geometry2 : G2) : Bool :=
  let c1 := collect_vectors1 geometry1
  let c2 := collect_vectors2 geometry2
  if c1.length = c2.length then
    detail.equals.std_equal eq (detail.equals.std_sort lt c1) (detail.equals.std_sort lt c2)
  else
    false

/-- A call in the dispatch of `equals.hpp`: of the free function `equals`, of
`dispatch::equals_reversed<...>::apply` or of `dispatch::equals<...>::apply`. -/
inductive Call (α : Type)
  | equals (geometry1 geometry2 : Geometry α)
  | equals_reversed (Tag1 Tag2 : Tag) (IsMulti1 IsMulti2 : Bool) (DimensionCount : Nat)
      (g1 g2 : Geometry α)
  | dispatch_equals (Tag1 Tag2 : Tag) (IsMulti1 IsMulti2 : Bool) (DimensionCount : Nat)
      (g1 g2 : Geometry α)

/-- What the body of a call does: it returns an outcome (`Sum.inl`) or it makes one further
call and returns what that call returns (`Sum.inr`). The free function `equals` calls
`equals_reversed` or `dispatch::equals`, as `reverse_dispatch` says; `equals_reversed::apply`
calls `dispatch::equals` for the swapped tags on the swapped arguments; `dispatch::equals`
runs its strategy. -/
def Call.step {α M V : Type} (E : Collaborators α M V) : Call α → Outcome ⊕ Call α
  | .equals geometry1 geometry2 =>
    match concept.check_concepts_and_equal_dimensions geometry1 geometry2 with
    | some e => .inl (.build_error e)
    | none =>
      if reverse_dispatch geometry1 geometry2 then
        .inr (.equals_reversed (tag geometry1) (tag geometry2) (is_multi geometry1)
          (is_multi geometry2) geometry1.dimension geometry1 geometry2)
      else
        .inr (.dispatch_equals (tag geometry1) (tag geometry2) (is_multi geometry1)
          (is_multi geometry2) geometry1.dimension geometry1 geometry2)
  | .equals_reversed Tag1 Tag2 IsMulti1 IsMulti2 DimensionCount g1 g2 =>
    .inr (.dispatch_equals Tag2 Tag1 IsMulti2 IsMulti1 DimensionCount g2 g1)
  | .dispatch_equals Tag1 Tag2 IsMulti1 IsMulti2 DimensionCount g1 g2 =>
    .inl (dispatch.equals E Tag1 Tag2 IsMulti1 IsMulti2 DimensionCount g1 g2)

/-- The calls are followed for at most `fuel` steps: the outcome and the number of calls of
`equals_reversed` on the way, or `none` when the fuel runs out first. -/
def Call.run {α M V : Type} (E : Collaborators α M V) : Nat → Call α → Option (Outcome × Nat)
  | 0, _ => none
  | fuel + 1, c =>
    match c.step E with
    | .inl outcome => some (outcome, 0)
    | .inr next =>
      match Call.run E fuel next, next with
      | some (outcome, swaps), .equals_reversed .. => some (outcome, swaps + 1)
      | some (outcome, swaps), _ => some (outcome, swaps)
      | none, _ => none

/-! ## `strategies/cartesian/distance_projected_point_ax.hpp`

The calculation type is an ordered field `K` with exact arithmetic. `arithmetic.hpp` and
`dot_product.hpp` are not among the sources; the operations on points are the ones the
algorithm comment of `projected_point_ax::apply` spells out, `VECTOR v(x2 - x1, y2 - y1)`,
`c1 = w . v`, `POINT(x1 + b * vx, y1 + b * vy)`, taken over the coordinates below the
dimension count. -/

/-- The call `subtract_point(a, b)` leaves `a - b` in `a`, coordinate by coordinate. -/
def subtract_point {K : Type} [LinearOrderedField K] (a b : Point K) : Point K :=
  fun d => a d - b d

/-- The call `add_point(a, b)` leaves `a + b` in `a`, coordinate by coordinate. -/
def add_point {K : Type} [LinearOrderedField K] (a b : Point K) : Point K :=
  fun d => a d + b d

/-- The call `multiply_value(a, value)` leaves `a` with every coordinate multiplied by
`value`. -/
def multiply_value {K : Type} [LinearOrderedField K] (a : Point K) (value : K) : Point K :=
  fun d => a d * value

/-- The value `dot_product(a, b)` for points of `DimensionCount` coordinates. -/
def dot_product {K : Type} [LinearOrderedField K] (DimensionCount : Nat) (a b : Point K) : K :=
  ∑ d in Finset.range DimensionCount, a d * b d

/-- The quotient `a / b` of the calculation type; dividing by zero gives no value. -/
def divide {K : Type} [LinearOrderedField K] (a b : K) : Option K :=
  if b = 0 then none else some (a / b)

/-- The squared Euclidean distance of two points of `DimensionCount` coordinates, the
comparable form of the point-point strategy `pythagoras` (`distance_pythagoras.hpp` is not
among the sources). -/
def comparable_pythagoras {K : Type} [LinearOrderedField K] (DimensionCount : Nat)
    (a b : Point K) : K :=
  ∑ d in Finset.range DimensionCount, (a d - b d) * (a d - b d)

/-- `math::equals` on an exact calculation type: plain `==`. -/
def math_equals_field {K : Type} [LinearOrderedField K] (a b : K) : Bool := decide (a = b)

/-- Modelled from the spec: `math::equals` on a floating calculation type (`util/math.hpp` is
not among the sources), where the equality of coordinates is "tolerance-based for floating
types (near-equality with a small epsilon)": two values are equal when they differ by at most
`epsilon`. -/
def math_equals_tolerance {K : Type} [LinearOrderedField K] (epsilon a b : K) : Bool :=
  decide (|a - b| ≤ epsilon)

/-- The machine epsilon of `double`, `2^-52`, as tolerance. -/
def double_epsilon : ℚ := 1 / 2 ^ 52

/-- First endpoint `(0, 0)` of a short segment. -/
def short_p1 : Point ℚ := xy 0 0

/-- Second endpoint `(1e-9, 0)` of a short segment: its squared length `1e-18` is not zero
and is below `double_epsilon`. -/
def short_p2 : Point ℚ := xy (1 / 10 ^ 9) 0

/-- The point `(5e-10, 1)`, above the middle of the short segment. -/
def short_p_above : Point ℚ := xy (1 / (2 * 10 ^ 9)) 1

/-- The point `(1, 1)`, whose projection on the line of the short segment lies past its
second endpoint. -/
def short_p_past : Point ℚ := xy 1 1

namespace strategy.distance.detail

/-- `projected_point_ax_result<T>`. -/
structure projected_point_ax_result (T : Type) where
  atd : T
  xtd : T

/-- `operator>` on `projected_point_ax_result<T>`. -/
def projected_point_ax_result.operator_gt {T : Type} [LinearOrder T]
    (left right : projected_point_ax_result T) : Bool :=
  decide (left.atd > right.atd) || decide (left.xtd > right.xtd)

/-- `projected_point_ax<CalculationType, Strategy>::apply(p, p1, p2)` for points of
`DimensionCount` coordinates (`assert_dimension_equal` holds when the program is built).
`strategy_apply` is `Strategy::apply`, the point-point strategy, and `math_equals` is
`math::equals` on the calculation type. The result is `none` when a division by zero is
reached. -/
def projected_point_ax.apply {K : Type} [LinearOrderedField K] (DimensionCount : Nat)
    (math_equals : K → K → Bool) (strategy_apply : Point K → Point K → K)
    (p p1 p2 : Point K) : Option (projected_point_ax_result K) :=
  let v : Point K := p2
  let w : Point K := p
  let projected : Point K := p1
  let v := subtract_point v projected
  let w := subtract_point w projected
  let zero : K := 0
  let c2 := dot_product DimensionCount v v
  if math_equals c2 zero then
    let xtd := strategy_apply p projected
    some ⟨xtd, xtd⟩
  else
    let c1 := dot_product DimensionCount w v
    match divide c1 c2 with
    | none => none
    | some b =>
      let v := multiply_value v b
      let projected := add_point projected v
      let xtd := strategy_apply p projected
      if c1 ≤ zero then
        some ⟨strategy_apply p1 projected, xtd⟩
      else if c2 ≤ c1 then
        some ⟨strategy_apply p2 projected, xtd⟩
      else
        some ⟨0, xtd⟩

end strategy.distance.detail

/-- The point `q = p1 + ((p - p1)·v / (v·v)) v` with `v = p2 - p1`: the projection of `p` on
the line through `p1` and `p2`. -/
def projection {K : Type} [LinearOrderedField K] (DimensionCount : Nat) (p p1 p2 : Point K) :
    Point K :=
  add_point p1 (multiply_value (subtract_point p2 p1)
    (dot_product DimensionCount (subtract_point p p1) (subtract_point p2 p1)
      / dot_product DimensionCount (subtract_point p2 p1) (subtract_point p2 p1)))

end BoostGeometry

/-! ## Lemmas on the strategies -/

namespace BoostGeometry

open detail.equals

theorem box_box_eq_true_iff {α : Type} (math_equals : α → α → Bool) (box1 box2 : Box α)
    (remaining Dimension : Nat) :
    box_box math_equals box1 box2 Dimension remaining = true ↔
      ∀ k, k < remaining →
        math_equals (box1.min_corner (Dimension + k)) (box2.min_corner (Dimension + k)) = true
        ∧ math_equals (box1.max_corner (Dimension + k)) (box2.max_corner (Dimension + k))
            = true := by
  induction remaining generalizing Dimension with
  | zero => simp [box_box]
  | succ r ih =>
    rw [box_box]
    constructor
    · intro h k hk
      have hhead : math_equals (box1.min_corner Dimension) (box2.min_corner Dimension) = true
          ∧ math_equals (box1.max_corner Dimension) (box2.max_corner Dimension) = true := by
        by_contra hne
        simp only [not_and_or, Bool.not_eq_true] at hne
        rcases hne with h0 | h0 <;> simp [h0] at h
      have htail : box_box math_equals box1 box2 (Dimension + 1) r = true := by
        simpa [hhead.1, hhead.2] using h
      cases k with
      | zero => simpa using hhead
      | succ j =>
        have := (ih (Dimension + 1)).1 htail j (by omega)
        simpa [Nat.add_assoc, Nat.add_comm 1 j] using this
    · intro h
      have h0 := h 0 (by omega)
      simp only [Nat.add_zero] at h0
      simp only [h0.1, h0.2, Bool.not_true, Bool.or_self, Bool.false_eq_true, if_false]
      refine (ih (Dimension + 1)).2 (fun k hk => ?_)
      have := h (k + 1) (by omega)
      simpa [Nat.add_assoc, Nat.add_comm 1 k] using this

theorem point_point_eq_false_iff {α : Type} (math_equals : α → α → Bool) (p1 p2 : Point α)
    (remaining Dimension : Nat) :
    detail.disjoint.point_point math_equals p1 p2 Dimension remaining = false ↔
      ∀ k, k < remaining → math_equals (p1 (Dimension + k)) (p2 (Dimension + k)) = true := by
  induction remaining generalizing Dimension with
  | zero => simp [detail.disjoint.point_point]
  | succ r ih =>
    rw [detail.disjoint.point_point]
    constructor
    · intro h k hk
      have hhead : math_equals (p1 Dimension) (p2 Dimension) = true := by
        by_contra hne
        simp only [Bool.not_eq_true] at hne
        simp [hne] at h
      have htail : detail.disjoint.point_point math_equals p1 p2 (Dimension + 1) r = false := by
        simpa [hhead] using h
      cases k with
      | zero => simpa using hhead
      | succ j =>
        have := (ih (Dimension + 1)).1 htail j (by omega)
        simpa [Nat.add_assoc, Nat.add_comm 1 j] using this
    · intro h
      have h0 := h 0 (by omega)
      simp only [Nat.add_zero] at h0
      simp only [h0, Bool.not_true, Bool.false_eq_true, if_false]
      refine (ih (Dimension + 1)).2 (fun k hk => ?_)
      have := h (k + 1) (by omega)
      simpa [Nat.add_assoc, Nat.add_comm 1 k] using this

theorem sort_insert_perm {V : Type} (lt : V → V → Bool) (x : V) (c : List V) :
    (sort_insert lt x c).Perm (x :: c) := by
  induction c with
  | nil => simp [sort_insert]
  | cons y ys ih =>
    rw [sort_insert]
    split
    · exact List.Perm.refl _
    · exact ((List.Perm.cons y ih).trans (List.Perm.swap x y ys))

theorem std_sort_perm {V : Type} (lt : V → V → Bool) (c : List V) :
    (std_sort lt c).Perm c := by
  induction c with
  | nil => simp [std_sort]
  | cons x xs ih =>
    have h : std_sort lt (x :: xs) = sort_insert lt x (std_sort lt xs) := rfl
    rw [h]
    exact (sort_insert_perm lt x _).trans (List.Perm.cons x ih)

theorem std_sort_length {V : Type} (lt : V → V → Bool) (c : List V) :
    (std_sort lt c).length = c.length :=
  (std_sort_perm lt c).length_eq

theorem std_equal_iff_forall₂ {V : Type} (eq : V → V → Bool) (c1 c2 : List V) :
    (c1.length == c2.length && std_equal eq c1 c2) = true ↔
      List.Forall₂ (fun a b => eq a b = true) c1 c2 := by
  induction c1 generalizing c2 with
  | nil =>
    cases c2 with
    | nil => simp [std_equal]
    | cons b bs => simp [std_equal]
  | cons a as ih =>
    cases c2 with
    | nil => simp [std_equal]
    | cons b bs =>
      have := ih bs
      simp only [Bool.and_eq_true, beq_iff_eq] at this
      simp only [std_equal, List.length_cons, Bool.and_eq_true, beq_iff_eq, List.forall₂_cons,
        Nat.add_right_cancel_iff]
      rw [← this]
      tauto

theorem std_equal_refl {V : Type} (eq : V → V → Bool) (c : List V)
    (hrefl : ∀ a, eq a a = true) : std_equal eq c c = true := by
  induction c with
  | nil => rfl
  | cons a as ih => simp [std_equal, hrefl, ih]

theorem std_equal_comm {V : Type} (eq : V → V → Bool) (c1 c2 : List V)
    (hsymm : ∀ a b, eq a b = eq b a) (hlen : c1.length = c2.length) :
    std_equal eq c1 c2 = std_equal eq c2 c1 := by
  induction c1 generalizing c2 with
  | nil =>
    cases c2 with
    | nil => rfl
    | cons b bs => simp at hlen
  | cons a as ih =>
    cases c2 with
    | nil => simp at hlen
    | cons b bs =>
      simp only [List.length_cons, Nat.add_right_cancel_iff] at hlen
      simp [std_equal, hsymm a b, ih bs hlen]

theorem box_box_comm {α : Type} (math_equals : α → α → Bool) (b1 b2 : Box α) (N : Nat)
    (hsymm : ∀ a b, math_equals a b = math_equals b a) :
    box_box math_equals b1 b2 0 N = box_box math_equals b2 b1 0 N := by
  rw [Bool.eq_iff_iff, box_box_eq_true_iff, box_box_eq_true_iff]
  constructor <;> intro h k hk <;>
    exact ⟨by rw [hsymm]; exact (h k hk).1, by rw [hsymm]; exact (h k hk).2⟩

theorem point_point_comm {α : Type} (math_equals : α → α → Bool) (p1 p2 : Point α) (N : Nat)
    (hsymm : ∀ a b, math_equals a b = math_equals b a) :
    detail.disjoint.point_point math_equals p1 p2 0 N
      = detail.disjoint.point_point math_equals p2 p1 0 N := by
  have h : ∀ a b : Bool, (a = false ↔ b = false) → a = b := by decide
  apply h
  rw [point_point_eq_false_iff, point_point_eq_false_iff]
  constructor <;> intro h k hk <;> (rw [hsymm]; exact h k hk)

theorem equals_by_collection_comm {G V : Type} (T : G → G → Bool) (collect : G → List V)
    (lt eq : V → V → Bool) (g1 g2 : G) (hT : T g1 g2 = T g2 g1)
    (hsymm : ∀ a b, eq a b = eq b a) :
    equals_by_collection T collect collect lt eq g1 g2
      = equals_by_collection T collect collect lt eq g2 g1 := by
  unfold equals_by_collection
  rw [hT]
  by_cases hlen : (collect g1).length = (collect g2).length
  · have hs : (std_sort lt (collect g1)).length = (std_sort lt (collect g2)).length := by
      rw [std_sort_length, std_sort_length, hlen]
    simp only [hlen, hs, std_equal_comm eq _ _ hsymm hs]
  · have hlen2 : ¬ (collect g2).length = (collect g1).length := fun h => hlen h.symm
    simp [hlen, hlen2]

theorem equals_by_collection_self {G V : Type} (T : G → G → Bool) (collect : G → List V)
    (lt eq : V → V → Bool) (g : G) (hT : T g g = true) (hrefl : ∀ a, eq a a = true) :
    equals_by_collection T collect collect lt eq g g = true := by
  simp [equals_by_collection, hT, std_equal_refl eq _ hrefl]

theorem trivial_check_of_refl {α M V : Type} (E : Collaborators α M V)
    (hrefl : ∀ a, E.measure_equals a a = true) (check : TrivialCheck) (g1 g2 : Geometry α) :
    check.apply E g1 g2 = true := by
  cases check <;> simp [TrivialCheck.apply, area_check, length_check, hrefl]

theorem strategy_apply_comm {α M V : Type} (E : Collaborators α M V)
    (hcoordinate : ∀ a b, E.coordinate_equals a b = E.coordinate_equals b a)
    (hmeasure : ∀ a, E.measure_equals a a = true)
    (hvector : ∀ a b, E.eq a b = E.eq b a)
    (N : Nat) (strategy : Strategy) (g1 g2 : Geometry α) :
    strategy.apply E N g1 g2 = strategy.apply E N g2 g1 := by
  cases strategy with
  | not_disjoint_point_point =>
    rcases g1 with ⟨d1, s1⟩
    rcases g2 with ⟨d2, s2⟩
    cases s1 <;> cases s2 <;> simp [Strategy.apply, detail.not_]
    exact point_point_comm _ _ _ _ hcoordinate
  | box_box =>
    rcases g1 with ⟨d1, s1⟩
    rcases g2 with ⟨d2, s2⟩
    cases s1 <;> cases s2 <;> simp [Strategy.apply]
    exact box_box_comm _ _ _ _ hcoordinate
  | equals_by_collection check =>
    simp only [Strategy.apply]
    rw [equals_by_collection_comm _ _ _ _ g1 g2 _ hvector]
    rw [trivial_check_of_refl E hmeasure, trivial_check_of_refl E hmeasure]

theorem registry_both_orders (t1 t2 : Tag) (m1 m2 : Bool) (N : Nat) (s s' : Strategy)
    (h12 : dispatch.registry t1 t2 m1 m2 N = some s)
    (h21 : dispatch.registry t2 t1 m2 m1 N = some s') : s = s' := by
  cases t1 <;> cases t2 <;> cases m1 <;> cases m2 <;>
    simp only [dispatch.registry, reduceCtorEq] at h12 h21 <;>
    (rw [h12] at h21; exact Option.some.inj h21)

theorem strategy_apply_value {α M V : Type} (E : Collaborators α M V) (g1 g2 : Geometry α)
    (N : Nat) (s : Strategy)
    (h : dispatch.registry (tag g1) (tag g2) (is_multi g1) (is_multi g2) N = some s) :
    ∃ b, s.apply E N g1 g2 = .value b := by
  rcases g1 with ⟨d1, s1⟩
  rcases g2 with ⟨d2, s2⟩
  cases s1 <;> cases s2 <;>
    simp only [tag, is_multi, dispatch.registry, reduceCtorEq] at h <;>
    first
      | (cases h; exact ⟨_, rfl⟩)
      | (split at h <;> first | (cases h; exact ⟨_, rfl⟩) | cases h)

theorem equals_same_dimension {α M V : Type} (E : Collaborators α M V) (g1 g2 : Geometry α)
    (h : g1.dimension = g2.dimension) :
    equals E g1 g2 =
      match dispatch.registry (tag g1) (tag g2) (is_multi g1) (is_multi g2) g1.dimension,
        dispatch.registry (tag g2) (tag g1) (is_multi g2) (is_multi g1) g1.dimension with
      | some s, _ => s.apply E g1.dimension g1 g2
      | none, some s => s.apply E g1.dimension g2 g1
      | none, none => .build_error .no_member_apply := by
  unfold equals concept.check_concepts_and_equal_dimensions reverse_dispatch
    dispatch.equals_reversed dispatch.equals
  simp only [h, if_true]
  cases h12 : dispatch.registry (tag g1) (tag g2) (is_multi g1) (is_multi g2) g2.dimension <;>
    cases h21 : dispatch.registry (tag g2) (tag g1) (is_multi g2) (is_multi g1)
      g2.dimension <;> simp

theorem equals_differing_dimensions {α M V : Type} (E : Collaborators α M V)
    (g1 g2 : Geometry α) (h : g1.dimension ≠ g2.dimension) :
    equals E g1 g2 = .build_error .dimensions_differ := by
  simp [equals, concept.check_concepts_and_equal_dimensions, h]

theorem exact_coordinate_equals_comm (a b : Int) :
    exact_collaborators.coordinate_equals a b = exact_collaborators.coordinate_equals b a := by
  simp [exact_collaborators, math_equals_exact, eq_comm]

theorem exact_coordinate_equals_self (a : Int) :
    exact_collaborators.coordinate_equals a a = true := by
  simp [exact_collaborators, math_equals_exact]

theorem exact_measure_equals_self (a : ℚ) : exact_collaborators.measure_equals a a = true := by
  simp [exact_collaborators]

theorem exact_eq_comm (a b : Edge) : exact_collaborators.eq a b = exact_collaborators.eq b a := by
  simp [exact_collaborators, eq_comm]

theorem exact_eq_self (a : Edge) : exact_collaborators.eq a a = true := by
  simp [exact_collaborators]

/-! ## Claims -/

/-- C1. `equals_by_collection` with trivial check `T` answers `true` exactly when `T` holds
for the two geometries, `collect_vectors` gives as many vectors for the one as for the other,
and the two collections, each sorted with `operator<`, are equal element by element under
`operator==`. A failing trivial check gives `false`, and so do differing vector counts. -/
theorem equals_by_collection_iff {G1 G2 V : Type} (T : G1 → G2 → Bool)
    (collect1 : G1 → List V) (collect2 : G2 → List V) (lt eq : V → V → Bool)
    (g1 : G1) (g2 : G2) :
    (equals_by_collection T collect1 collect2 lt eq g1 g2 = true ↔
      T g1 g2 = true ∧ (collect1 g1).length = (collect2 g2).length ∧
        List.Forall₂ (fun a b => eq a b = true)
          (std_sort lt (collect1 g1)) (std_sort lt (collect2 g2)))
    ∧ (T g1 g2 = false → equals_by_collection T collect1 collect2 lt eq g1 g2 = false)
    ∧ ((collect1 g1).length ≠ (collect2 g2).length →
        equals_by_collection T collect1 collect2 lt eq g1 g2 = false) := by
  refine ⟨?_, ?_, ?_⟩
  · unfold equals_by_collection
    cases hT : T g1 g2
    · simp
    · by_cases hlen : (collect1 g1).length = (collect2 g2).length
      · simp only [Bool.not_true, Bool.false_eq_true, if_false, hlen, bne_self_eq_false,
          true_and]
        exact std_equal_iff_forall₂ eq _ _
      · simp [hlen]
  · intro hT
    simp [equals_by_collection, hT]
  · intro hlen
    unfold equals_by_collection
    cases hT : T g1 g2 <;> simp [hlen]

/-- C2. The box/box strategy, `box_box` started at dimension 0 with `DimensionCount = N`,
answers `true` exactly when in every dimension below `N` the min-corner coordinates of the
two boxes are equal and the max-corner coordinates are equal under `math::equals`; the free
function `equals` on two boxes of dimension `N` is that strategy; on integers the comparison
is exact. `BOX(1 2,3 4)` equals itself and `BOX(1 1,2 2)` does not equal `BOX(1 2,2 2)`. -/
theorem box_box_all_dimensions :
    (∀ (α : Type) (math_equals : α → α → Bool) (N : Nat) (b1 b2 : Box α),
      box_box math_equals b1 b2 0 N = true ↔
        ∀ d, d < N → math_equals (b1.min_corner d) (b2.min_corner d) = true
          ∧ math_equals (b1.max_corner d) (b2.max_corner d) = true)
    ∧ (∀ (α M V : Type) (E : Collaborators α M V) (N : Nat) (b1 b2 : Box α),
      equals E ⟨N, .box b1⟩ ⟨N, .box b2⟩ = .value (box_box E.coordinate_equals b1 b2 0 N))
    ∧ (∀ (N : Nat) (b1 b2 : Box Int),
      box_box math_equals_exact b1 b2 0 N = true ↔
        ∀ d, d < N → b1.min_corner d = b2.min_corner d ∧ b1.max_corner d = b2.max_corner d)
    ∧ box_box math_equals_exact ⟨xy 1 2, xy 3 4⟩ ⟨xy 1 2, xy 3 4⟩ 0 2 = true
    ∧ box_box math_equals_exact ⟨xy 1 1, xy 2 2⟩ ⟨xy 1 2, xy 2 2⟩ 0 2 = false := by
  refine ⟨?_, ?_, ?_, by decide, by decide⟩
  · intro α math_equals N b1 b2
    simpa using box_box_eq_true_iff math_equals b1 b2 N 0
  · intro α M V E N b1 b2
    simp [equals, concept.check_concepts_and_equal_dimensions, reverse_dispatch,
      dispatch.registry, dispatch.equals, tag, is_multi, Strategy.apply]
  · intro N b1 b2
    simpa [math_equals_exact] using box_box_eq_true_iff math_equals_exact b1 b2 N 0

/-- C3. Point/point `equals` is the negation of the point/point disjoint test, and it is
`true` exactly when the coordinates of the two points agree under `math::equals` in every
dimension below `N` (exactly, on integers). `POINT(1 1)` equals `POINT(1 1)` and does not
equal `POINT(1 2)`. -/
theorem point_point_not_disjoint :
    (∀ (α M V : Type) (E : Collaborators α M V) (N : Nat) (p1 p2 : Point α),
      equals E ⟨N, .point p1⟩ ⟨N, .point p2⟩
        = .value (!detail.disjoint.point_point E.coordinate_equals p1 p2 0 N))
    ∧ (∀ (α M V : Type) (E : Collaborators α M V) (N : Nat) (p1 p2 : Point α),
      equals E ⟨N, .point p1⟩ ⟨N, .point p2⟩ = .value true ↔
        ∀ d, d < N → E.coordinate_equals (p1 d) (p2 d) = true)
    ∧ (∀ (N : Nat) (p1 p2 : Point Int),
      equals exact_collaborators ⟨N, .point p1⟩ ⟨N, .point p2⟩ = .value true ↔
        ∀ d, d < N → p1 d = p2 d)
    ∧ equals exact_collaborators ⟨2, .point (xy 1 1)⟩ ⟨2, .point (xy 1 1)⟩ = .value true
    ∧ equals exact_collaborators ⟨2, .point (xy 1 1)⟩ ⟨2, .point (xy 1 2)⟩ = .value false := by
  have key : ∀ (α M V : Type) (E : Collaborators α M V) (N : Nat) (p1 p2 : Point α),
      equals E ⟨N, .point p1⟩ ⟨N, .point p2⟩
        = .value (!detail.disjoint.point_point E.coordinate_equals p1 p2 0 N) := by
    intro α M V E N p1 p2
    simp [equals, concept.check_concepts_and_equal_dimensions, reverse_dispatch,
      dispatch.registry, dispatch.equals, tag, is_multi, Strategy.apply, detail.not_]
  have iff : ∀ (α M V : Type) (E : Collaborators α M V) (N : Nat) (p1 p2 : Point α),
      equals E ⟨N, .point p1⟩ ⟨N, .point p2⟩ = .value true ↔
        ∀ d, d < N → E.coordinate_equals (p1 d) (p2 d) = true := by
    intro α M V E N p1 p2
    rw [key]
    simpa using point_point_eq_false_iff E.coordinate_equals p1 p2 N 0
  refine ⟨key, iff, ?_, by decide, by decide⟩
  intro N p1 p2
  rw [iff]
  simp [exact_collaborators, math_equals_exact]

/-- C4. `area_check::apply(geometry1, geometry2)` compares `area(geometry1)` with
`area(geometry1)`: the second geometry is not looked at. For the rings
`(0 0,0 2,2 2,0 0)` of area 2 and `(0 0,0 4,4 4,0 0)` of area 8 the check answers `true`
although the areas differ. -/
theorem area_check_ignores_second_geometry :
    (∀ (G1 G2 M : Type) (math_equals : M → M → Bool) (area1 : G1 → M) (area2 : G2 → M)
        (g1 : G1) (g2 : G2),
      area_check math_equals area1 area2 g1 g2 = math_equals (area1 g1) (area1 g1))
    ∧ exact_collaborators.area ⟨2, .ring case_p1⟩ = 2
    ∧ exact_collaborators.area ⟨2, .ring [xy 0 0, xy 0 4, xy 4 4, xy 0 0]⟩ = 8
    ∧ exact_collaborators.measure_equals (exact_collaborators.area ⟨2, .ring case_p1⟩)
        (exact_collaborators.area ⟨2, .ring [xy 0 0, xy 0 4, xy 4 4, xy 0 0]⟩) = false
    ∧ TrivialCheck.area_check.apply exact_collaborators
        ⟨2, .ring case_p1⟩ ⟨2, .ring [xy 0 0, xy 0 4, xy 4 4, xy 0 0]⟩ = true := by
  refine ⟨fun _ _ _ _ _ _ _ _ => rfl, ?_, ?_, ?_, ?_⟩
  · norm_num [exact_collaborators, exact_area, ring_area, case_p1, xy, List.zipWith]
  · norm_num [exact_collaborators, exact_area, ring_area, xy, List.zipWith]
  · norm_num [exact_collaborators, exact_area, ring_area, case_p1, xy, List.zipWith]
  · simp [TrivialCheck.apply, area_check, exact_collaborators]

/-- C5. `length_check::apply(geometry1, geometry2)` compares `length(geometry1)` with
`length(geometry1)`: the second geometry is not looked at. For `LINESTRING(0 0,1 0)` of
length 1 and `LINESTRING(0 0,2 0)` of length 2 the check answers `true` although the lengths
differ. -/
theorem length_check_ignores_second_geometry :
    (∀ (G1 G2 M : Type) (math_equals : M → M → Bool) (length1 : G1 → M) (length2 : G2 → M)
        (g1 : G1) (g2 : G2),
      length_check math_equals length1 length2 g1 g2
        = math_equals (length1 g1) (length1 g1))
    ∧ exact_collaborators.length ⟨2, .linestring [xy 0 0, xy 1 0]⟩ = 1
    ∧ exact_collaborators.length ⟨2, .linestring [xy 0 0, xy 2 0]⟩ = 2
    ∧ exact_collaborators.measure_equals
        (exact_collaborators.length ⟨2, .linestring [xy 0 0, xy 1 0]⟩)
        (exact_collaborators.length ⟨2, .linestring [xy 0 0, xy 2 0]⟩) = false
    ∧ TrivialCheck.length_check.apply exact_collaborators
        ⟨2, .linestring [xy 0 0, xy 1 0]⟩ ⟨2, .linestring [xy 0 0, xy 2 0]⟩ = true := by
  refine ⟨fun _ _ _ _ _ _ _ _ => rfl, ?_, ?_, ?_, ?_⟩
  · norm_num [exact_collaborators, exact_length, axis_parallel_length, edges, xy,
      List.zipWith]
  · norm_num [exact_collaborators, exact_length, axis_parallel_length, edges, xy,
      List.zipWith]
  · norm_num [exact_collaborators, exact_length, axis_parallel_length, edges, xy,
      List.zipWith]
  · simp [TrivialCheck.apply, length_check, exact_collaborators]

/-- C6. Symmetry. With a symmetric coordinate comparison, a reflexive comparison of measures
and a symmetric `operator==` on collected vectors, `equals(g1, g2)` and `equals(g2, g1)`
come to the same for every two geometries; and when the two have the same dimension and the
kind pair is registered in either order, the common outcome is a boolean. -/
theorem equals_symmetric {α M V : Type} (E : Collaborators α M V)
    (hcoordinate : ∀ a b, E.coordinate_equals a b = E.coordinate_equals b a)
    (hmeasure : ∀ a, E.measure_equals a a = true)
    (hvector : ∀ a b, E.eq a b = E.eq b a)
    (g1 g2 : Geometry α) :
    equals E g1 g2 = equals E g2 g1
    ∧ (g1.dimension = g2.dimension →
        (dispatch.registry (tag g1) (tag g2) (is_multi g1) (is_multi g2) g1.dimension).isSome
          ∨ (dispatch.registry (tag g2) (tag g1) (is_multi g2) (is_multi g1)
              g1.dimension).isSome →
        ∃ b, equals E g1 g2 = .value b ∧ equals E g2 g1 = .value b) := by
  have hsymm : equals E g1 g2 = equals E g2 g1 := by
    by_cases hdim : g1.dimension = g2.dimension
    · rw [equals_same_dimension E g1 g2 hdim, equals_same_dimension E g2 g1 hdim.symm,
        ← hdim]
      cases h12 : dispatch.registry (tag g1) (tag g2) (is_multi g1) (is_multi g2)
          g1.dimension <;>
        cases h21 : dispatch.registry (tag g2) (tag g1) (is_multi g2) (is_multi g1)
          g1.dimension <;> simp only []
      rename_i s s'
      rw [registry_both_orders _ _ _ _ _ s s' h12 h21]
      exact strategy_apply_comm E hcoordinate hmeasure hvector _ _ _ _
    · rw [equals_differing_dimensions E g1 g2 hdim,
        equals_differing_dimensions E g2 g1 (fun h => hdim h.symm)]
  refine ⟨hsymm, fun hdim hreg => ?_⟩
  rw [← hsymm, equals_same_dimension E g1 g2 hdim]
  cases h12 : dispatch.registry (tag g1) (tag g2) (is_multi g1) (is_multi g2)
      g1.dimension <;>
    cases h21 : dispatch.registry (tag g2) (tag g1) (is_multi g2) (is_multi g1)
      g1.dimension <;> simp only [h12, h21, Option.isSome_none, Option.isSome_some] at hreg ⊢
  · simp at hreg
  · obtain ⟨b, hb⟩ := strategy_apply_value E g2 g1 _ _ h21
    exact ⟨b, hb, hb⟩
  · obtain ⟨b, hb⟩ := strategy_apply_value E g1 g2 _ _ h12
    exact ⟨b, hb, hb⟩
  · obtain ⟨b, hb⟩ := strategy_apply_value E g1 g2 _ _ h12
    exact ⟨b, hb, hb⟩

/-- Witness for C6 on the box/ring pair of the tests, `BOX(1 1,2 2)` and
`POLYGON((1 1,1 2,2 2,2 1,1 1))`, with the exact collaborators. -/
theorem equals_symmetric_witness :
    (∀ a b, exact_collaborators.coordinate_equals a b
        = exact_collaborators.coordinate_equals b a)
    ∧ (∀ a, exact_collaborators.measure_equals a a = true)
    ∧ (∀ a b, exact_collaborators.eq a b = exact_collaborators.eq b a)
    ∧ equals exact_collaborators ⟨2, .box ⟨xy 1 1, xy 2 2⟩⟩
          ⟨2, .ring [xy 1 1, xy 1 2, xy 2 2, xy 2 1, xy 1 1]⟩
        = equals exact_collaborators ⟨2, .ring [xy 1 1, xy 1 2, xy 2 2, xy 2 1, xy 1 1]⟩
          ⟨2, .box ⟨xy 1 1, xy 2 2⟩⟩
    ∧ ∃ b, equals exact_collaborators ⟨2, .box ⟨xy 1 1, xy 2 2⟩⟩
          ⟨2, .ring [xy 1 1, xy 1 2, xy 2 2, xy 2 1, xy 1 1]⟩ = .value b
        ∧ equals exact_collaborators ⟨2, .ring [xy 1 1, xy 1 2, xy 2 2, xy 2 1, xy 1 1]⟩
          ⟨2, .box ⟨xy 1 1, xy 2 2⟩⟩ = .value b :=
  have h := equals_symmetric exact_collaborators exact_coordinate_equals_comm
    exact_measure_equals_self exact_eq_comm ⟨2, .box ⟨xy 1 1, xy 2 2⟩⟩
    ⟨2, .ring [xy 1 1, xy 1 2, xy 2 2, xy 2 1, xy 1 1]⟩
  ⟨exact_coordinate_equals_comm, exact_measure_equals_self, exact_eq_comm, h.1,
    h.2 rfl (by decide)⟩

/-- C7. Reflexivity. With reflexive comparisons, `equals(g, g)` is `true` for every point and
box, and for every ring, polygon and linestring of dimension 2 (the kinds that have a
strategy for a pair of the same kind). -/
theorem equals_reflexive {α M V : Type} (E : Collaborators α M V)
    (hcoordinate : ∀ a, E.coordinate_equals a a = true)
    (hmeasure : ∀ a, E.measure_equals a a = true)
    (hvector : ∀ a, E.eq a a = true)
    (g : Geometry α)
    (hkind : tag g = .point_tag ∨ tag g = .box_tag
      ∨ ((tag g = .ring_tag ∨ tag g = .polygon_tag ∨ tag g = .linestring_tag)
          ∧ g.dimension = 2)) :
    equals E g g = .value true := by
  have hT : ∀ check : TrivialCheck, check.apply E g g = true :=
    fun check => trivial_check_of_refl E hmeasure check g g
  rcases g with ⟨d, s⟩
  cases s <;> simp only [tag, reduceCtorEq, false_or, or_false, false_and, true_and,
    true_or, or_true] at hkind
  · -- point
    simp only [equals, concept.check_concepts_and_equal_dimensions, reverse_dispatch,
      dispatch.registry, dispatch.equals, tag, is_multi, Strategy.apply, detail.not_,
      if_true, Option.isNone_some, Bool.false_and, Bool.false_eq_true, if_false]
    rw [(point_point_eq_false_iff E.coordinate_equals _ _ d 0).2 (fun k _ => hcoordinate _)]
    rfl
  · -- linestring
    subst hkind
    simp only [equals, concept.check_concepts_and_equal_dimensions, reverse_dispatch,
      dispatch.registry, dispatch.equals, tag, is_multi, Strategy.apply,
      if_true, Option.isNone_some, Bool.false_and, Bool.false_eq_true, if_false]
    rw [equals_by_collection_self _ _ _ _ _ (hT _) hvector]
  · -- polygon
    subst hkind
    simp only [equals, concept.check_concepts_and_equal_dimensions, reverse_dispatch,
      dispatch.registry, dispatch.equals, tag, is_multi, Strategy.apply,
      if_true, Option.isNone_some, Bool.false_and, Bool.false_eq_true, if_false]
    rw [equals_by_collection_self _ _ _ _ _ (hT _) hvector]
  · -- ring
    subst hkind
    simp only [equals, concept.check_concepts_and_equal_dimensions, reverse_dispatch,
      dispatch.registry, dispatch.equals, tag, is_multi, Strategy.apply,
      if_true, Option.isNone_some, Bool.false_and, Bool.false_eq_true, if_false]
    rw [equals_by_collection_self _ _ _ _ _ (hT _) hvector]
  · -- box
    simp only [equals, concept.check_concepts_and_equal_dimensions, reverse_dispatch,
      dispatch.registry, dispatch.equals, tag, is_multi, Strategy.apply,
      if_true, Option.isNone_some, Bool.false_and, Bool.false_eq_true, if_false]
    rw [(box_box_eq_true_iff E.coordinate_equals _ _ d 0).2
      (fun k _ => ⟨hcoordinate _, hcoordinate _⟩)]

/-- Witness for C7 on the ring of the tests, `POLYGON((0 0,0 2,2 2,0 0))`. -/
theorem equals_reflexive_witness :
    (∀ a, exact_collaborators.coordinate_equals a a = true)
    ∧ (∀ a, exact_collaborators.measure_equals a a = true)
    ∧ (∀ a, exact_collaborators.eq a a = true)
    ∧ equals exact_collaborators ⟨2, .ring case_p1⟩ ⟨2, .ring case_p1⟩ = .value true :=
  ⟨exact_coordinate_equals_self, exact_measure_equals_self, exact_eq_self,
    equals_reflexive exact_collaborators exact_coordinate_equals_self
      exact_measure_equals_self exact_eq_self ⟨2, .ring case_p1⟩
      (Or.inr (Or.inr ⟨Or.inl rfl, rfl⟩))⟩

/-- C8. `equals_reversed::apply(g1, g2)` is `dispatch::equals` for the swapped tags applied to
`(g2, g1)`; a call of `equals` that is dispatched in reversed order therefore gives what the
strategy registered for `(tag2, tag1)` gives on `(g2, g1)`. Box/ring, box/polygon and
ring/polygon are dispatched in reversed order, and `equals(box, ring) = equals(ring, box)`,
`equals(box, polygon) = equals(polygon, box)`, `equals(ring, polygon) = equals(polygon, ring)`
for every box, ring and polygon. -/
theorem equals_reversed_swaps :
    (∀ (α M V : Type) (E : Collaborators α M V) (t1 t2 : Tag) (m1 m2 : Bool) (N : Nat)
        (g1 g2 : Geometry α),
      dispatch.equals_reversed E t1 t2 m1 m2 N g1 g2 = dispatch.equals E t2 t1 m2 m1 N g2 g1)
    ∧ (∀ (α M V : Type) (E : Collaborators α M V) (g1 g2 : Geometry α),
      g1.dimension = g2.dimension → reverse_dispatch g1 g2 = true →
      ∃ s, dispatch.registry (tag g2) (tag g1) (is_multi g2) (is_multi g1) g1.dimension
            = some s
        ∧ equals E g1 g2 = s.apply E g1.dimension g2 g1)
    ∧ (∀ (α : Type) (b : Box α) (r : List (Point α)),
      reverse_dispatch ⟨2, .box b⟩ ⟨2, .ring r⟩ = true)
    ∧ (∀ (α : Type) (b : Box α) (outer : List (Point α)) (inners : List (List (Point α))),
      reverse_dispatch ⟨2, .box b⟩ ⟨2, .polygon outer inners⟩ = true)
    ∧ (∀ (α : Type) (r outer : List (Point α)) (inners : List (List (Point α))),
      reverse_dispatch ⟨2, .ring r⟩ ⟨2, .polygon outer inners⟩ = true)
    ∧ (∀ (α M V : Type) (E : Collaborators α M V) (d1 d2 : Nat) (b : Box α)
        (r : List (Point α)),
      equals E ⟨d1, .box b⟩ ⟨d2, .ring r⟩ = equals E ⟨d2, .ring r⟩ ⟨d1, .box b⟩)
    ∧ (∀ (α M V : Type) (E : Collaborators α M V) (d1 d2 : Nat) (b : Box α)
        (outer : List (Point α)) (inners : List (List (Point α))),
      equals E ⟨d1, .box b⟩ ⟨d2, .polygon outer inners⟩
        = equals E ⟨d2, .polygon outer inners⟩ ⟨d1, .box b⟩)
    ∧ (∀ (α M V : Type) (E : Collaborators α M V) (d1 d2 : Nat) (r outer : List (Point α))
        (inners : List (List (Point α))),
      equals E ⟨d1, .ring r⟩ ⟨d2, .polygon outer inners⟩
        = equals E ⟨d2, .polygon outer inners⟩ ⟨d1, .ring r⟩) := by
  have swap : ∀ (α M V : Type) (E : Collaborators α M V) (g1 g2 : Geometry α),
      tag g1 ≠ tag g2 → equals E g1 g2 = equals E g2 g1 := by
    intro α M V E g1 g2 htag
    by_cases hdim : g1.dimension = g2.dimension
    · rw [equals_same_dimension E g1 g2 hdim, equals_same_dimension E g2 g1 hdim.symm,
        ← hdim]
      cases h12 : dispatch.registry (tag g1) (tag g2) (is_multi g1) (is_multi g2)
          g1.dimension <;>
        cases h21 : dispatch.registry (tag g2) (tag g1) (is_multi g2) (is_multi g1)
          g1.dimension <;> simp only []
      exfalso
      revert h12 h21 htag
      generalize tag g1 = t1
      generalize tag g2 = t2
      generalize is_multi g1 = m1
      generalize is_multi g2 = m2
      intro htag h12 h21
      cases t1 <;> cases t2 <;> cases m1 <;> cases m2 <;>
        simp [dispatch.registry] at h12 h21 htag
    · rw [equals_differing_dimensions E g1 g2 hdim,
        equals_differing_dimensions E g2 g1 (fun h => hdim h.symm)]
  refine ⟨fun _ _ _ _ _ _ _ _ _ _ _ => rfl, ?_, ?_, ?_, ?_, ?_, ?_, ?_⟩
  · intro α M V E g1 g2 hdim hrev
    rw [equals_same_dimension E g1 g2 hdim]
    unfold reverse_dispatch at hrev
    cases h12 : dispatch.registry (tag g1) (tag g2) (is_multi g1) (is_multi g2)
        g1.dimension <;>
      cases h21 : dispatch.registry (tag g2) (tag g1) (is_multi g2) (is_multi g1)
        g1.dimension <;> simp [h12, h21] at hrev ⊢
  · intro α b r
    simp [reverse_dispatch, dispatch.registry, tag, is_multi]
  · intro α b outer inners
    simp [reverse_dispatch, dispatch.registry, tag, is_multi]
  · intro α r outer inners
    simp [reverse_dispatch, dispatch.registry, tag, is_multi]
  · intro α M V E d1 d2 b r
    exact swap α M V E _ _ (by simp [tag])
  · intro α M V E d1 d2 b outer inners
    exact swap α M V E _ _ (by simp [tag])
  · intro α M V E d1 d2 r outer inners
    exact swap α M V E _ _ (by simp [tag])

/-- C9. The specialisations of `dispatch::equals`: a strategy is registered exactly for
point/point and box/box at every dimension count, and at dimension count 2 for
linestring/linestring (collection with the length check) and for ring/ring, polygon/polygon,
polygon/ring, ring/box and polygon/box (collection with the area check), all with both
multi flags unset. Every other combination selects the primary template. -/
theorem registry_entries (t1 t2 : Tag) (m1 m2 : Bool) (N : Nat) :
    (∀ s, dispatch.registry t1 t2 m1 m2 N = some s ↔
      m1 = false ∧ m2 = false ∧
        ((t1 = .point_tag ∧ t2 = .point_tag ∧ s = .not_disjoint_point_point)
        ∨ (t1 = .box_tag ∧ t2 = .box_tag ∧ s = .box_box)
        ∨ (N = 2 ∧ t1 = .linestring_tag ∧ t2 = .linestring_tag
            ∧ s = .equals_by_collection .length_check)
        ∨ (N = 2 ∧ s = .equals_by_collection .area_check ∧
            ((t1 = .ring_tag ∧ t2 = .ring_tag) ∨ (t1 = .polygon_tag ∧ t2 = .polygon_tag)
              ∨ (t1 = .polygon_tag ∧ t2 = .ring_tag) ∨ (t1 = .ring_tag ∧ t2 = .box_tag)
              ∨ (t1 = .polygon_tag ∧ t2 = .box_tag)))))
    ∧ (dispatch.registry t1 t2 m1 m2 N = none ↔
      ¬ (m1 = false ∧ m2 = false ∧
        ((t1 = .point_tag ∧ t2 = .point_tag) ∨ (t1 = .box_tag ∧ t2 = .box_tag)
        ∨ (N = 2 ∧
            ((t1 = .linestring_tag ∧ t2 = .linestring_tag)
              ∨ (t1 = .ring_tag ∧ t2 = .ring_tag) ∨ (t1 = .polygon_tag ∧ t2 = .polygon_tag)
              ∨ (t1 = .polygon_tag ∧ t2 = .ring_tag) ∨ (t1 = .ring_tag ∧ t2 = .box_tag)
              ∨ (t1 = .polygon_tag ∧ t2 = .box_tag)))))) := by
  constructor
  · intro s
    cases t1 <;> cases t2 <;> cases m1 <;> cases m2 <;>
      simp only [dispatch.registry, reduceCtorEq, false_and, and_false, or_false, false_or,
        true_and, and_true, iff_false, not_false_eq_true] <;>
      first
        | (constructor <;> intro h <;> first | exact h.symm | (cases h; rfl))
        | (by_cases hN : N = 2 <;> simp [hN, eq_comm])
  · cases t1 <;> cases t2 <;> cases m1 <;> cases m2 <;>
      simp only [dispatch.registry, reduceCtorEq, false_and, and_false, or_false, false_or,
        true_and, and_true, not_false_eq_true, not_true_eq_false] <;>
      first
        | (by_cases hN : N = 2 <;> simp [hN])

/-- C10, as stated, fails: point/box has no strategy in either order, and `equals` on
`POINT(1 1)` and `BOX(1 1,2 2)` comes to the missing `apply` of the empty primary template.
In a build with `BOOST_GEOMETRY_IMPLEMENTATION_STATUS_BUILD` set, `not_implemented` for the
algorithm tag of `equals` and the two kinds raises its run-time error instead, so the
outcome of `equals` is not the outcome of the not-implemented fallback. -/
theorem equals_point_box_is_not_the_not_implemented_fallback :
    dispatch.registry .point_tag .box_tag false false 2 = none
    ∧ dispatch.registry .box_tag .point_tag false false 2 = none
    ∧ equals exact_collaborators ⟨2, .point (xy 1 1)⟩ ⟨2, .box ⟨xy 1 1, xy 2 2⟩⟩
        = .build_error .no_member_apply
    ∧ not_implemented ⟨true, []⟩ (.algorithm equals_tag) (.geometry .point_tag)
          (.geometry .box_tag) .void
        = .runtime_error "equals is not implemented for the given parameters"
    ∧ equals exact_collaborators ⟨2, .point (xy 1 1)⟩ ⟨2, .box ⟨xy 1 1, xy 2 2⟩⟩
        ≠ not_implemented ⟨true, []⟩ (.algorithm equals_tag) (.geometry .point_tag)
          (.geometry .box_tag) .void := by
  refine ⟨by decide, by decide, by decide, by decide, by decide⟩

/-- C10, amended. For a kind pair with no strategy in either order, `equals` never yields a
boolean; when the dimensions agree the call selects the empty primary template of
`dispatch::equals` and is rejected at build time for want of an `apply`. -/
theorem equals_unregistered_no_boolean {α M V : Type} (E : Collaborators α M V)
    (g1 g2 : Geometry α)
    (h12 : dispatch.registry (tag g1) (tag g2) (is_multi g1) (is_multi g2) g1.dimension
      = none)
    (h21 : dispatch.registry (tag g2) (tag g1) (is_multi g2) (is_multi g1) g1.dimension
      = none) :
    (∀ b, equals E g1 g2 ≠ .value b)
    ∧ (g1.dimension = g2.dimension → equals E g1 g2 = .build_error .no_member_apply) := by
  have hsame : g1.dimension = g2.dimension →
      equals E g1 g2 = .build_error .no_member_apply := by
    intro hdim
    rw [equals_same_dimension E g1 g2 hdim, h12, h21]
  refine ⟨fun b => ?_, hsame⟩
  by_cases hdim : g1.dimension = g2.dimension
  · rw [hsame hdim]; simp
  · rw [equals_differing_dimensions E g1 g2 hdim]; simp

/-- Witness for the amended C10 on the pair `LINESTRING(0 0,1 0,2 0)`,
`MULTILINESTRING((0 0,2 0))`, for which `equals.hpp` registers no strategy. -/
theorem equals_unregistered_no_boolean_witness :
    (∀ b, equals exact_collaborators ⟨2, .linestring [xy 0 0, xy 1 0, xy 2 0]⟩
        ⟨2, .multi_linestring [[xy 0 0, xy 2 0]]⟩ ≠ .value b)
    ∧ equals exact_collaborators ⟨2, .linestring [xy 0 0, xy 1 0, xy 2 0]⟩
        ⟨2, .multi_linestring [[xy 0 0, xy 2 0]]⟩ = .build_error .no_member_apply :=
  have h := equals_unregistered_no_boolean exact_collaborators
    ⟨2, .linestring [xy 0 0, xy 1 0, xy 2 0]⟩ ⟨2, .multi_linestring [[xy 0 0, xy 2 0]]⟩
    (by decide) (by decide)
  ⟨h.1, h.2 rfl⟩

/-- C11. When the dimension counts of the two geometries differ, `equals` is rejected by the
dimension check, whatever the collaborators and the kinds are, and yields no boolean.
Whenever `equals` does yield a boolean, the two dimension counts agree and the boolean is
the one a registered strategy gives at the dimension count of the first geometry, on
`(g1, g2)` or, dispatched in reversed order, on `(g2, g1)`. -/
theorem equals_checks_dimensions_first {α M V : Type} (E : Collaborators α M V)
    (g1 g2 : Geometry α) :
    (g1.dimension ≠ g2.dimension →
      concept.check_concepts_and_equal_dimensions g1 g2 = some .dimensions_differ
      ∧ equals E g1 g2 = .build_error .dimensions_differ
      ∧ ∀ b, equals E g1 g2 ≠ .value b)
    ∧ (∀ b, equals E g1 g2 = .value b →
      g1.dimension = g2.dimension ∧
      ∃ s, (dispatch.registry (tag g1) (tag g2) (is_multi g1) (is_multi g2) g1.dimension
              = some s ∧ s.apply E g1.dimension g1 g2 = .value b)
        ∨ (dispatch.registry (tag g2) (tag g1) (is_multi g2) (is_multi g1) g1.dimension
              = some s ∧ s.apply E g1.dimension g2 g1 = .value b))
    ∧ equals exact_collaborators ⟨2, .point (xy 1 1)⟩ ⟨3, .point (xy 1 1)⟩
        = .build_error .dimensions_differ := by
  refine ⟨fun hdim => ⟨?_, ?_, fun b => ?_⟩, fun b hb => ?_, by decide⟩
  · simp [concept.check_concepts_and_equal_dimensions, hdim]
  · exact equals_differing_dimensions E g1 g2 hdim
  · rw [equals_differing_dimensions E g1 g2 hdim]; simp
  · by_cases hdim : g1.dimension = g2.dimension
    · refine ⟨hdim, ?_⟩
      rw [equals_same_dimension E g1 g2 hdim] at hb
      cases h12 : dispatch.registry (tag g1) (tag g2) (is_multi g1) (is_multi g2)
          g1.dimension <;>
        cases h21 : dispatch.registry (tag g2) (tag g1) (is_multi g2) (is_multi g1)
          g1.dimension <;> simp only [h12, h21] at hb
      · simp at hb
      · exact ⟨_, Or.inr ⟨rfl, hb⟩⟩
      · exact ⟨_, Or.inl ⟨rfl, hb⟩⟩
      · exact ⟨_, Or.inl ⟨rfl, hb⟩⟩
    · rw [equals_differing_dimensions E g1 g2 hdim] at hb
      simp at hb

/-- C18, as stated, fails: in a build where the fallback raises at run time, the message
raised for `equals` on a point and a box is the message raised for `equals` on a ring and a
segment. The text names the algorithm and none of the geometry kinds. -/
theorem not_implemented_message_is_the_same_for_all_kinds :
    not_implemented ⟨true, []⟩ (.algorithm equals_tag) (.geometry .point_tag)
        (.geometry .box_tag) .void
      = .runtime_error "equals is not implemented for the given parameters"
    ∧ not_implemented ⟨true, []⟩ (.algorithm equals_tag) (.geometry .ring_tag)
        (.geometry .segment_tag) .void
      = .runtime_error "equals is not implemented for the given parameters"
    ∧ nyi.tag_to_term (.geometry .point_tag) ≠ nyi.tag_to_term (.geometry .ring_tag)
    ∧ nyi.tag_to_term (.geometry .box_tag) ≠ nyi.tag_to_term (.geometry .segment_tag) := by
  refine ⟨by decide, by decide, by decide, by decide⟩

/-- C18, amended. When the policy of an algorithm tag is set, `not_implemented_error::apply`
raises `not_implemented_runtime_error` with the text `Tag::what()` followed by
" is not implemented for the given parameters": the text is the same for all geometry-kind
terms, and two algorithm tags raise the same text only if their `what()` is the same. -/
theorem not_implemented_message_names_the_algorithm (cfg : BuildConfig) (t : algorithm_tag)
    (Term1 Term2 Term3 : Term) (hpolicy : not_implemented_policy cfg (.algorithm t) = true) :
    nyi.not_implemented_error cfg (some t) Term1 Term2 Term3
        = .runtime_error (t.what ++ " is not implemented for the given parameters")
    ∧ (∀ Term1' Term2' Term3', nyi.not_implemented_error cfg (some t) Term1' Term2' Term3'
        = nyi.not_implemented_error cfg (some t) Term1 Term2 Term3)
    ∧ (∀ t' : algorithm_tag, not_implemented_policy cfg (.algorithm t') = true →
        nyi.not_implemented_error cfg (some t') Term1 Term2 Term3
          = nyi.not_implemented_error cfg (some t) Term1 Term2 Term3 → t'.what = t.what) := by
  have key : ∀ (u : algorithm_tag) (T1 T2 T3 : Term),
      not_implemented_policy cfg (.algorithm u) = true →
      nyi.not_implemented_error cfg (some u) T1 T2 T3
        = .runtime_error (u.what ++ " is not implemented for the given parameters") := by
    intro u T1 T2 T3 hu
    simp [nyi.not_implemented_error, hu]
  refine ⟨key t _ _ _ hpolicy, fun T1 T2 T3 => ?_, fun t' ht' h => ?_⟩
  · rw [key t _ _ _ hpolicy, key t _ _ _ hpolicy]
  · rw [key t' _ _ _ ht', key t _ _ _ hpolicy] at h
    have h' := congrArg String.data (Outcome.runtime_error.inj h)
    rw [String.data_append, String.data_append] at h'
    exact String.ext (List.append_cancel_right h')

/-- Witness for the amended C18: `equals` on a point and a box, with the policy enabled for
the tag of `equals`. -/
theorem not_implemented_message_names_the_algorithm_witness :
    not_implemented_policy ⟨false, [.algorithm equals_tag]⟩ (.algorithm equals_tag) = true
    ∧ nyi.not_implemented_error ⟨false, [.algorithm equals_tag]⟩ (some equals_tag)
        .POINT .BOX (.unchanged .void)
      = .runtime_error ("equals" ++ " is not implemented for the given parameters") :=
  ⟨by decide, (not_implemented_message_names_the_algorithm
    ⟨false, [.algorithm equals_tag]⟩ equals_tag .POINT .BOX (.unchanged .void)
    (by decide)).1⟩

/-- C19. The policy of an algorithm tag is set exactly when the build has
`BOOST_GEOMETRY_IMPLEMENTATION_STATUS_BUILD` set or the policy has been specialised for
that tag. With the policy unset, `not_implemented_error` is rejected at build time by its
assertion; with the policy set, `apply` raises `not_implemented_runtime_error` and returns
no result. -/
theorem not_implemented_policy_selects_the_fallback (cfg : BuildConfig) (t : algorithm_tag)
    (Term1 Term2 Term3 : Term) :
    (not_implemented_policy cfg (.algorithm t) = true ↔
      cfg.IMPLEMENTATION_STATUS_BUILD = true ∨ Arg.algorithm t ∈ cfg.NYI_RUNTIME_ERROR)
    ∧ (not_implemented_policy cfg (.algorithm t) = false →
      nyi.not_implemented_error cfg (some t) Term1 Term2 Term3
        = .build_error (.THIS_OPERATION_IS_NOT_OR_NOT_YET_IMPLEMENTED Term1 Term2 Term3))
    ∧ (not_implemented_policy cfg (.algorithm t) = true →
      (∃ what, nyi.not_implemented_error cfg (some t) Term1 Term2 Term3
          = .runtime_error what)
      ∧ ∀ b, nyi.not_implemented_error cfg (some t) Term1 Term2 Term3 ≠ .value b)
    ∧ not_implemented_policy ⟨false, []⟩ (.algorithm t) = false := by
  refine ⟨?_, fun h => ?_, fun h => ⟨⟨t.what ++ " is not implemented for the given parameters",
    ?_⟩, fun b => ?_⟩, ?_⟩
  · unfold not_implemented_policy
    by_cases hmem : Arg.algorithm t ∈ cfg.NYI_RUNTIME_ERROR <;> simp [hmem]
  · simp [nyi.not_implemented_error, h]
  · simp only [nyi.not_implemented_error, h, if_true]
  · simp [nyi.not_implemented_error, h]
  · simp [not_implemented_policy]

/-- C20. `equals.hpp` has no specialisation of `dispatch::equals` for two segments, at any
dimension count: for every two segments, `equals` comes to the missing `apply` of the primary
template and yields no boolean. On the segments `(0 0,3 3)` and `(3 3,0 0)`, and on
`(0 0,3 3)` twice, where the test expects `true`, the call does not come to `true`; on
`(0 0,3 3)` and `(0 0,1 1)`, where the test expects `false`, it does not come to `false`. -/
theorem equals_segment_segment_does_not_build :
    (∀ (α M V : Type) (E : Collaborators α M V) (d : Nat) (p1 p2 q1 q2 : Point α),
      equals E ⟨d, .segment p1 p2⟩ ⟨d, .segment q1 q2⟩ = .build_error .no_member_apply)
    ∧ dispatch.registry .segment_tag .segment_tag false false 2 = none
    ∧ equals exact_collaborators ⟨2, .segment (xy 0 0) (xy 3 3)⟩
        ⟨2, .segment (xy 0 0) (xy 3 3)⟩ ≠ .value true
    ∧ equals exact_collaborators ⟨2, .segment (xy 0 0) (xy 3 3)⟩
        ⟨2, .segment (xy 3 3) (xy 0 0)⟩ ≠ .value true
    ∧ equals exact_collaborators ⟨2, .segment (xy 0 0) (xy 3 3)⟩
        ⟨2, .segment (xy 0 0) (xy 1 1)⟩ ≠ .value false := by
  refine ⟨fun α M V E d p1 p2 q1 q2 => ?_, by decide, by decide, by decide, by decide⟩
  simp [equals, concept.check_concepts_and_equal_dimensions, reverse_dispatch,
    dispatch.registry, dispatch.equals, tag, is_multi]

/-! ## Lemmas on sorting and on the decomposition into straight runs -/

theorem strict_weak_order.asymm {V : Type} {lt eq : V → V → Bool}
    (h : strict_weak_order lt eq) {a b : V} (hab : lt a b = true) : lt b a = false := by
  cases hba : lt b a
  · rfl
  · have := h.trans a b a hab hba
    rw [h.irrefl a] at this
    cases this

theorem mem_sort_insert {V : Type} (lt : V → V → Bool) (x z : V) (c : List V) :
    z ∈ sort_insert lt x c ↔ z = x ∨ z ∈ c := by
  rw [(sort_insert_perm lt x c).mem_iff, List.mem_cons]

theorem sort_insert_sorted {V : Type} {lt eq : V → V → Bool} (h : strict_weak_order lt eq)
    (x : V) (c : List V) (hc : c.Pairwise (fun a b => lt b a = false)) :
    (sort_insert lt x c).Pairwise (fun a b => lt b a = false) := by
  induction c with
  | nil => simp [sort_insert]
  | cons y ys ih =>
    rw [List.pairwise_cons] at hc
    rw [sort_insert]
    by_cases hxy : lt x y = true
    · rw [if_pos hxy, List.pairwise_cons]
      refine ⟨fun z hz => ?_, List.pairwise_cons.2 hc⟩
      rcases List.mem_cons.1 hz with rfl | hz
      · exact h.asymm hxy
      · cases hzx : lt z x
        · rfl
        · have := h.trans z x y hzx hxy
          rw [hc.1 z hz] at this
          cases this
    · rw [if_neg hxy, List.pairwise_cons]
      refine ⟨fun z hz => ?_, ih hc.2⟩
      rcases (mem_sort_insert lt x z ys).1 hz with rfl | hz
      · simpa using hxy
      · exact hc.1 z hz

theorem std_sort_sorted {V : Type} {lt eq : V → V → Bool} (h : strict_weak_order lt eq)
    (c : List V) : (std_sort lt c).Pairwise (fun a b => lt b a = false) := by
  induction c with
  | nil => simp [std_sort]
  | cons x xs ih => exact sort_insert_sorted h x _ ih

theorem forall₂_of_map_eq {V Q : Type} (f : V → Q) :
    ∀ l₁ l₂ : List V, l₁.map f = l₂.map f → List.Forall₂ (fun a b => f a = f b) l₁ l₂
  | [], [], _ => List.Forall₂.nil
  | [], _ :: _, h => by simp at h
  | _ :: _, [], h => by simp at h
  | a :: l₁, b :: l₂, h => by
    simp only [List.map_cons, List.cons.injEq] at h
    exact List.Forall₂.cons h.1 (forall₂_of_map_eq f l₁ l₂ h.2)

theorem sorted_perm_pointwise {V : Type} {lt eq : V → V → Bool} (h : strict_weak_order lt eq)
    (l₁ l₂ : List V) (hperm : l₁.Perm l₂)
    (h₁ : l₁.Pairwise (fun a b => lt b a = false))
    (h₂ : l₂.Pairwise (fun a b => lt b a = false)) :
    List.Forall₂ (fun a b => eq a b = true) l₁ l₂ := by
  let s : Setoid V :=
    { r := fun a b => lt a b = false ∧ lt b a = false
      iseqv :=
        { refl := fun a => ⟨h.irrefl a, h.irrefl a⟩
          symm := fun hab => ⟨hab.2, hab.1⟩
          trans := fun hab hbc => h.incomparable_trans _ _ _ hab.1 hab.2 hbc.1 hbc.2 } }
  have hle : ∀ a a' b b' : V, s.r a a' → s.r b b' → lt b a = false → lt b' a' = false := by
    intro a a' b b' haa hbb hba
    -- b' ~ b, b ≤ ... : suppose lt b' a' = true
    cases hcase : lt b' a'
    · rfl
    · exfalso
      -- a' ~ a and lt b' a' → lt b' a; b ~ b' and lt b' a → lt b a
      have h1 : lt b' a = true := by
        cases h1 : lt b' a
        · -- b' incomparable or a < b'
          cases h2 : lt a b'
          · have := h.incomparable_trans b' a a' h1 h2 haa.1 haa.2
            rw [hcase] at this
            cases this.1
          · have := h.trans a b' a' h2 hcase
            rw [haa.1] at this
            cases this
        · rfl
      cases h3 : lt a b
      · have := h.incomparable_trans b' b a hbb.2 hbb.1 hba h3
        rw [h1] at this
        cases this.1
      · have := h.trans b' a b h1 h3
        rw [hbb.2] at this
        cases this
  let r : Quotient s → Quotient s → Prop :=
    Quotient.lift₂ (fun a b => lt b a = false) (by
      intro a b a' b' haa hbb
      apply propext
      constructor
      · exact hle a a' b b' haa hbb
      · exact hle a' a b' b (s.iseqv.symm haa) (s.iseqv.symm hbb))
  haveI : IsAntisymm (Quotient s) r :=
    ⟨by
      intro x y
      refine Quotient.inductionOn₂ x y ?_
      intro a b hab hba
      exact Quotient.sound ⟨hba, hab⟩⟩
  have hs₁ : (l₁.map (Quotient.mk s)).Sorted r := by
    rw [List.Sorted, List.pairwise_map]
    exact h₁
  have hs₂ : (l₂.map (Quotient.mk s)).Sorted r := by
    rw [List.Sorted, List.pairwise_map]
    exact h₂
  have hmap := List.eq_of_perm_of_sorted (hperm.map (Quotient.mk s)) hs₁ hs₂
  have hforall := forall₂_of_map_eq (Quotient.mk s) l₁ l₂ hmap
  refine hforall.imp ?_
  intro a b hab
  have hab' : s.r a b := Quotient.exact hab
  rw [h.eq_iff, hab'.1, hab'.2]
  rfl

theorem equals_by_collection_eq_true {G1 G2 V : Type} (T : G1 → G2 → Bool)
    (collect1 : G1 → List V) (collect2 : G2 → List V) (lt eq : V → V → Bool)
    (g1 : G1) (g2 : G2) :
    equals_by_collection T collect1 collect2 lt eq g1 g2 = true ↔
      T g1 g2 = true ∧ (collect1 g1).length = (collect2 g2).length ∧
        List.Forall₂ (fun a b => eq a b = true)
          (std_sort lt (collect1 g1)) (std_sort lt (collect2 g2)) := by
  unfold equals_by_collection
  cases hT : T g1 g2
  · simp
  · by_cases hlen : (collect1 g1).length = (collect2 g2).length
    · simp only [Bool.not_true, Bool.false_eq_true, if_false, hlen, bne_self_eq_false,
        true_and]
      exact std_equal_iff_forall₂ eq _ _
    · simp [hlen]

theorem strict_weak_order.eq_symm {V : Type} {lt eq : V → V → Bool}
    (h : strict_weak_order lt eq) {a b : V} (hab : eq a b = true) : eq b a = true := by
  rw [h.eq_iff] at hab ⊢
  simp only [Bool.and_eq_true, Bool.not_eq_true'] at hab ⊢
  exact ⟨hab.2, hab.1⟩

theorem strict_weak_order.eq_trans {V : Type} {lt eq : V → V → Bool}
    (h : strict_weak_order lt eq) {a b c : V} (hab : eq a b = true) (hbc : eq b c = true) :
    eq a c = true := by
  rw [h.eq_iff] at hab hbc ⊢
  simp only [Bool.and_eq_true, Bool.not_eq_true'] at hab hbc ⊢
  exact h.incomparable_trans a b c hab.1 hab.2 hbc.1 hbc.2

theorem forall₂_eq_trans {V : Type} {lt eq : V → V → Bool} (h : strict_weak_order lt eq) :
    ∀ l₁ l₂ l₃ : List V, List.Forall₂ (fun a b => eq a b = true) l₁ l₂ →
      List.Forall₂ (fun a b => eq a b = true) l₂ l₃ →
      List.Forall₂ (fun a b => eq a b = true) l₁ l₃
  | [], _, _, h₁, h₂ => by cases h₁; cases h₂; exact List.Forall₂.nil
  | a :: l₁, _, _, h₁, h₂ => by
    cases h₁ with
    | cons hab h₁ =>
      cases h₂ with
      | cons hbc h₂ =>
        exact List.Forall₂.cons (h.eq_trans hab hbc) (forall₂_eq_trans h l₁ _ _ h₁ h₂)

theorem forall₂_eq_symm {V : Type} {lt eq : V → V → Bool} (h : strict_weak_order lt eq)
    {l₁ l₂ : List V} (h₁ : List.Forall₂ (fun a b => eq a b = true) l₁ l₂) :
    List.Forall₂ (fun a b => eq a b = true) l₂ l₁ :=
  (h₁.imp (fun _ _ hab => h.eq_symm hab)).flip

theorem std_sort_perm_pointwise {V : Type} {lt eq : V → V → Bool}
    (h : strict_weak_order lt eq) {c c' : List V} (hperm : c'.Perm c) :
    List.Forall₂ (fun a b => eq a b = true) (std_sort lt c') (std_sort lt c) :=
  sorted_perm_pointwise h _ _
    (((std_sort_perm lt c').trans hperm).trans (std_sort_perm lt c).symm)
    (std_sort_sorted h c') (std_sort_sorted h c)

theorem is_multi_eq_of_tag_eq {α : Type} {g g' : Geometry α} (htag : tag g = tag g') :
    is_multi g = is_multi g' := by
  rcases g with ⟨d, s⟩
  rcases g' with ⟨d', s'⟩
  cases s <;> cases s' <;> simp [tag] at htag <;> rfl

theorem strategy_apply_congr {α M V : Type} (E : Collaborators α M V) (g g' h : Geometry α)
    (htag : tag g = tag g') (hpoint : tag g ≠ .point_tag) (hbox : tag g ≠ .box_tag)
    (hcollection : ∀ check : TrivialCheck,
      equals_by_collection (check.apply E) E.collect_vectors E.collect_vectors E.lt E.eq g' h
        = equals_by_collection (check.apply E) E.collect_vectors E.collect_vectors E.lt E.eq
            g h
      ∧ equals_by_collection (check.apply E) E.collect_vectors E.collect_vectors E.lt E.eq
            h g'
        = equals_by_collection (check.apply E) E.collect_vectors E.collect_vectors E.lt E.eq
            h g)
    (N : Nat) (s : Strategy) :
    s.apply E N g' h = s.apply E N g h ∧ s.apply E N h g' = s.apply E N h g := by
  cases s with
  | equals_by_collection check =>
    simp only [Strategy.apply]
    rw [(hcollection check).1, (hcollection check).2]
    exact ⟨rfl, rfl⟩
  | not_disjoint_point_point =>
    rcases g with ⟨d, s⟩
    rcases g' with ⟨d', s'⟩
    rcases h with ⟨dh, sh⟩
    cases s <;> cases s' <;> simp [tag] at htag hpoint hbox <;> cases sh <;>
      simp [Strategy.apply]
  | box_box =>
    rcases g with ⟨d, s⟩
    rcases g' with ⟨d', s'⟩
    rcases h with ⟨dh, sh⟩
    cases s <;> cases s' <;> simp [tag] at htag hpoint hbox <;> cases sh <;>
      simp [Strategy.apply]

theorem equals_congr {α M V : Type} (E : Collaborators α M V) (g g' h : Geometry α)
    (hdim : g.dimension = g'.dimension)
    (htag : tag g = tag g') (hpoint : tag g ≠ .point_tag) (hbox : tag g ≠ .box_tag)
    (hcollection : ∀ check : TrivialCheck,
      equals_by_collection (check.apply E) E.collect_vectors E.collect_vectors E.lt E.eq g' h
        = equals_by_collection (check.apply E) E.collect_vectors E.collect_vectors E.lt E.eq
            g h
      ∧ equals_by_collection (check.apply E) E.collect_vectors E.collect_vectors E.lt E.eq
            h g'
        = equals_by_collection (check.apply E) E.collect_vectors E.collect_vectors E.lt E.eq
            h g) :
    equals E g' h = equals E g h ∧ equals E h g' = equals E h g := by
  have hmulti := is_multi_eq_of_tag_eq htag
  have hs := strategy_apply_congr E g g' h htag hpoint hbox hcollection
  by_cases hd : g.dimension = h.dimension
  · have hd' : g'.dimension = h.dimension := hdim ▸ hd
    rw [equals_same_dimension E g' h hd', equals_same_dimension E g h hd,
      equals_same_dimension E h g' hd'.symm, equals_same_dimension E h g hd.symm,
      ← htag, ← hmulti, ← hdim]
    constructor
    · cases dispatch.registry (tag g) (tag h) (is_multi g) (is_multi h) g.dimension <;>
        cases dispatch.registry (tag h) (tag g) (is_multi h) (is_multi g) g.dimension <;>
        simp only [(hs _ _).1, (hs _ _).2]
    · cases dispatch.registry (tag g) (tag h) (is_multi g) (is_multi h) h.dimension <;>
        cases dispatch.registry (tag h) (tag g) (is_multi h) (is_multi g) h.dimension <;>
        simp only [(hs _ _).1, (hs _ _).2]
  · have hd' : g'.dimension ≠ h.dimension := hdim ▸ hd
    rw [equals_differing_dimensions E g' h hd', equals_differing_dimensions E g h hd,
      equals_differing_dimensions E h g' (fun e => hd' e.symm),
      equals_differing_dimensions E h g (fun e => hd e.symm)]
    exact ⟨rfl, rfl⟩

theorem same_direction_iff (u v : Int × Int) :
    same_direction u v = true ↔
      u.1 * v.2 - u.2 * v.1 = 0 ∧ 0 < u.1 * v.1 + u.2 * v.2 := by
  simp [same_direction]

theorem same_direction_symm {u v : Int × Int} (h : same_direction u v = true) :
    same_direction v u = true := by
  rw [same_direction_iff] at h ⊢
  constructor
  · linarith [h.1]
  · nlinarith [h.2]

theorem same_direction_trans {u v w : Int × Int} (huv : same_direction u v = true)
    (hvw : same_direction v w = true) : same_direction u w = true := by
  rw [same_direction_iff] at huv hvw ⊢
  obtain ⟨a, b⟩ := u
  obtain ⟨c, d⟩ := v
  obtain ⟨e, f⟩ := w
  simp only at huv hvw ⊢
  obtain ⟨h1, h2⟩ := huv
  obtain ⟨h3, h4⟩ := hvw
  have hpos : 0 < c * c + d * d := by
    by_contra hneg
    have hc : c = 0 := by nlinarith [mul_self_nonneg c, mul_self_nonneg d]
    have hd : d = 0 := by nlinarith [mul_self_nonneg c, mul_self_nonneg d]
    subst hc; subst hd
    simp at h2
  constructor
  · have h : (c * c + d * d) * (a * f - b * e) = 0 := by
      have : (c * c + d * d) * (a * f - b * e)
          = (a * c + b * d) * (c * f - d * e) + (a * d - b * c) * (c * e + d * f) := by ring
      rw [this, h1, h3]; ring
    rcases mul_eq_zero.1 h with h | h
    · omega
    · exact h
  · have h : (c * c + d * d) * (a * e + b * f) = (a * c + b * d) * (c * e + d * f) := by
      have : (c * c + d * d) * (a * e + b * f)
          = (a * c + b * d) * (c * e + d * f) - (a * d - b * c) * (c * f - d * e) := by ring
      rw [this, h1, h3]; ring
    have hprod : 0 < (c * c + d * d) * (a * e + b * f) := by
      rw [h]; exact mul_pos h2 h4
    exact (mul_pos_iff_of_pos_left hpos).1 hprod

theorem same_direction_add_right {u v w : Int × Int} (huv : same_direction u v = true)
    (huw : same_direction u w = true) :
    same_direction u (v.1 + w.1, v.2 + w.2) = true := by
  rw [same_direction_iff] at huv huw ⊢
  simp only
  constructor
  · linarith [huv.1, huw.1]
  · nlinarith [huv.2, huw.2]

theorem same_direction_add_left {u v w : Int × Int} (huw : same_direction u w = true)
    (hvw : same_direction v w = true) :
    same_direction (u.1 + v.1, u.2 + v.2) w = true :=
  same_direction_symm (same_direction_add_right (same_direction_symm huw)
    (same_direction_symm hvw))

theorem nonzero_edges_append (A : List (Point Int)) (p : Point Int) (rest : List (Point Int)) :
    nonzero_edges (A ++ p :: rest) = nonzero_edges (A ++ [p]) ++ nonzero_edges (p :: rest) := by
  induction A with
  | nil => simp [nonzero_edges]
  | cons a A ih =>
    cases A with
    | nil =>
      simp only [List.cons_append, List.nil_append, nonzero_edges]
      split <;> simp [nonzero_edges]
    | cons a' A =>
      simp only [List.cons_append] at ih ⊢
      simp only [nonzero_edges, ih]
      split <;> simp

theorem nonzero_edges_head_start (q : Point Int) (B : List (Point Int)) :
    ∀ r ∈ (nonzero_edges (q :: B)).head?, r.start = (q 0, q 1) := by
  induction B generalizing q with
  | nil => simp [nonzero_edges]
  | cons b B ih =>
    intro r hr
    simp only [nonzero_edges] at hr
    split at hr
    · rename_i heq
      rw [heq]
      exact ih b r hr
    · simp only [List.head?_cons, Option.mem_def, Option.some.injEq] at hr
      rw [← hr]

theorem merge_run_head_start (s : Run) (l : List Run) :
    ∀ r ∈ (merge_run s l).head?, r.start = s.start := by
  intro r hr
  cases l with
  | nil =>
    simp only [merge_run, List.head?_cons, Option.mem_def, Option.some.injEq] at hr
    rw [← hr]
  | cons t rest =>
    simp only [merge_run] at hr
    split at hr <;>
      simp only [List.head?_cons, Option.mem_def, Option.some.injEq] at hr <;> rw [← hr]

theorem straight_runs_head_start (q : Point Int) (B : List (Point Int)) :
    ∀ r ∈ (straight_runs (q :: B)).head?, r.start = (q 0, q 1) := by
  intro r hr
  unfold straight_runs at hr
  have hhead := nonzero_edges_head_start q B
  cases hne : nonzero_edges (q :: B) with
  | nil => rw [hne] at hr; simp at hr
  | cons s l =>
    rw [hne] at hr hhead
    rw [List.foldr_cons] at hr
    rw [merge_run_head_start s _ r hr]
    exact hhead s (by simp)

theorem merge_run_split (P M Q : Int × Int) (acc : List Run)
    (hdir : same_direction (M.1 - P.1, M.2 - P.2) (Q.1 - M.1, Q.2 - M.2) = true)
    (hacc : ∀ t ∈ acc.head?, t.start = Q) :
    merge_run ⟨P, M⟩ (merge_run ⟨M, Q⟩ acc) = merge_run ⟨P, Q⟩ acc := by
  have hPQ : (Q.1 - P.1, Q.2 - P.2)
      = ((M.1 - P.1) + (Q.1 - M.1), (M.2 - P.2) + (Q.2 - M.2)) := by
    ext <;> simp
  have hself : same_direction (Q.1 - M.1, Q.2 - M.2) (Q.1 - M.1, Q.2 - M.2) = true :=
    same_direction_trans (same_direction_symm hdir) hdir
  cases acc with
  | nil => simp [merge_run, Run.vector, hdir]
  | cons t rest =>
    have ht : t.start = Q := hacc t (by simp)
    have hvec : t.vector = (t.finish.1 - Q.1, t.finish.2 - Q.2) := by
      simp [Run.vector, ht]
    by_cases hmt : same_direction (Q.1 - M.1, Q.2 - M.2) t.vector = true
    · have h1 : same_direction (M.1 - P.1, M.2 - P.2) (t.finish.1 - M.1, t.finish.2 - M.2)
          = true := by
        have hsum := same_direction_add_right hdir (same_direction_trans hdir hmt)
        have : (t.finish.1 - M.1, t.finish.2 - M.2)
            = ((Q.1 - M.1) + t.vector.1, (Q.2 - M.2) + t.vector.2) := by
          rw [hvec]; ext <;> simp
        rw [this]; exact hsum
      have h2 : same_direction (Q.1 - P.1, Q.2 - P.2) t.vector = true := by
        rw [hPQ]
        exact same_direction_add_left (same_direction_trans hdir hmt) hmt
      simp only [Run.vector] at hmt h2
      simp [merge_run, Run.vector, hmt, h1, h2]
    · have h2 : ¬ same_direction (Q.1 - P.1, Q.2 - P.2) t.vector = true := by
        intro h2
        apply hmt
        refine same_direction_trans ?_ h2
        rw [hPQ]
        exact same_direction_add_right (same_direction_symm hdir) hself
      simp only [Run.vector] at hmt h2
      simp [merge_run, Run.vector, hmt, h2, hdir]

theorem on_segment_cases (p q m : Point Int) (h : on_segment p q m = true) :
    (m 0, m 1) = (p 0, p 1) ∨ (m 0, m 1) = (q 0, q 1)
      ∨ same_direction (m 0 - p 0, m 1 - p 1) (q 0 - m 0, q 1 - m 1) = true := by
  simp only [on_segment, Bool.and_eq_true, decide_eq_true_eq] at h
  obtain ⟨⟨hc, hx⟩, hy⟩ := h
  by_cases hmp : (m 0, m 1) = (p 0, p 1)
  · exact Or.inl hmp
  by_cases hmq : (m 0, m 1) = (q 0, q 1)
  · exact Or.inr (Or.inl hmq)
  refine Or.inr (Or.inr ?_)
  rw [same_direction_iff]
  dsimp only
  simp only [Prod.mk.injEq, not_and] at hmp hmq
  have hcross : (m 0 - p 0) * (q 1 - m 1) - (m 1 - p 1) * (q 0 - m 0) = 0 := by
    linear_combination hc
  have hx' : 0 ≤ (m 0 - p 0) * (q 0 - m 0) := by
    rcases hx with hx | hx
    · exact mul_nonneg (by omega) (by omega)
    · exact mul_nonneg_of_nonpos_of_nonpos (by omega) (by omega)
  have hy' : 0 ≤ (m 1 - p 1) * (q 1 - m 1) := by
    rcases hy with hy | hy
    · exact mul_nonneg (by omega) (by omega)
    · exact mul_nonneg_of_nonpos_of_nonpos (by omega) (by omega)
  refine ⟨hcross, ?_⟩
  by_contra hdot
  have h1 : (m 0 - p 0) * (q 0 - m 0) = 0 := by omega
  have h2 : (m 1 - p 1) * (q 1 - m 1) = 0 := by omega
  rcases mul_eq_zero.1 h1 with ha | hc' <;> rcases mul_eq_zero.1 h2 with hb | hd
  · exact hmp (by omega) (by omega)
  · rw [ha, hd] at hcross
    simp only [zero_mul, zero_sub, neg_eq_zero, mul_eq_zero] at hcross
    rcases hcross with hb | hc'
    · exact hmp (by omega) (by omega)
    · exact hmq (by omega) (by omega)
  · rw [hc', hb] at hcross
    simp only [zero_mul, sub_zero, mul_eq_zero] at hcross
    rcases hcross with ha | hd
    · exact hmp (by omega) (by omega)
    · exact hmq (by omega) (by omega)
  · exact hmq (by omega) (by omega)

theorem straight_runs_insert (A B : List (Point Int)) (p q m : Point Int)
    (h : on_segment p q m = true) :
    straight_runs (A ++ p :: m :: q :: B) = straight_runs (A ++ p :: q :: B) := by
  unfold straight_runs
  rw [nonzero_edges_append A p (m :: q :: B), nonzero_edges_append A p (q :: B),
    List.foldr_append, List.foldr_append]
  congr 1
  rcases on_segment_cases p q m h with hmp | hmq | hdir
  · have hpm : (p 0, p 1) = (m 0, m 1) := hmp.symm
    simp only [nonzero_edges, hpm, if_true]
  · simp only [nonzero_edges, hmq, if_true]
  · have hd := (same_direction_iff _ _).1 hdir
    dsimp only at hd
    have hpm : (p 0, p 1) ≠ (m 0, m 1) := by
      intro e
      simp only [Prod.mk.injEq] at e
      have h0 : m 0 - p 0 = 0 := by omega
      have h1 : m 1 - p 1 = 0 := by omega
      have := hd.2
      simp only [h0, h1, zero_mul, add_zero, lt_self_iff_false] at this
    have hmq : (m 0, m 1) ≠ (q 0, q 1) := by
      intro e
      simp only [Prod.mk.injEq] at e
      have h0 : q 0 - m 0 = 0 := by omega
      have h1 : q 1 - m 1 = 0 := by omega
      have := hd.2
      simp only [h0, h1, mul_zero, add_zero, lt_self_iff_false] at this
    have hpq : (p 0, p 1) ≠ (q 0, q 1) := by
      intro e
      simp only [Prod.mk.injEq] at e
      have h0 : q 0 - m 0 = -(m 0 - p 0) := by omega
      have h1 : q 1 - m 1 = -(m 1 - p 1) := by omega
      have := hd.2
      rw [h0, h1] at this
      nlinarith [mul_self_nonneg (m 0 - p 0), mul_self_nonneg (m 1 - p 1)]
    simp only [nonzero_edges, hpm, hmq, hpq, if_false, List.foldr_cons]
    exact merge_run_split (p 0, p 1) (m 0, m 1) (q 0, q 1) _ hdir
      (straight_runs_head_start q B)

theorem straight_runs_duplicate (A B : List (Point Int)) (p : Point Int) :
    straight_runs (A ++ p :: p :: B) = straight_runs (A ++ p :: B) := by
  unfold straight_runs
  rw [nonzero_edges_append A p (p :: B), nonzero_edges_append A p B]
  simp [nonzero_edges]

theorem edge_lt_irrefl (a : Edge) : Edge.lt a a = false := by
  simp [Edge.lt]

theorem edge_lt_trans (a b c : Edge) (hab : Edge.lt a b = true) (hbc : Edge.lt b c = true) :
    Edge.lt a c = true := by
  rcases a with ⟨ax, ay, adx, ady⟩
  rcases b with ⟨bx, b_y, bdx, bdy⟩
  rcases c with ⟨cx, cy, cdx, cdy⟩
  simp only [Edge.lt] at hab hbc ⊢
  split_ifs at hab hbc ⊢ <;> simp only [decide_eq_true_eq] at hab hbc ⊢ <;> omega

theorem edge_lt_incomparable (a b : Edge) (hab : Edge.lt a b = false)
    (hba : Edge.lt b a = false) : a = b := by
  rcases a with ⟨ax, ay, adx, ady⟩
  rcases b with ⟨bx, b_y, bdx, bdy⟩
  simp only [Edge.lt] at hab hba
  simp only [Edge.mk.injEq]
  split_ifs at hab hba <;> simp only [decide_eq_false_iff_not] at hab hba <;> omega

theorem edge_strict_weak_order : strict_weak_order Edge.lt (fun a b => a == b) where
  irrefl := edge_lt_irrefl
  trans := edge_lt_trans
  incomparable_trans := by
    intro a b c hab hba hbc hcb
    have h1 := edge_lt_incomparable a b hab hba
    have h2 := edge_lt_incomparable b c hbc hcb
    subst h1; subst h2
    exact ⟨edge_lt_irrefl a, edge_lt_irrefl a⟩
  eq_iff := by
    intro a b
    by_cases h : a = b
    · subst h
      simp [edge_lt_irrefl]
    · have hne : (a == b) = false := by simpa using h
      rw [hne]
      cases hab : Edge.lt a b
      · cases hba : Edge.lt b a
        · exact absurd (edge_lt_incomparable a b hab hba) h
        · rfl
      · rfl

theorem run_measure_equals_self (a : ℚ) : run_collaborators.measure_equals a a = true := by
  simp [run_collaborators]

theorem run_eq_self (a : Edge) : run_collaborators.eq a a = true := by
  simp [run_collaborators]

theorem equals_collection_self {α M V : Type} (E : Collaborators α M V)
    (hmeasure : ∀ a, E.measure_equals a a = true) (hvector : ∀ a, E.eq a a = true)
    (g : Geometry α)
    (hkind : tag g = .ring_tag ∨ tag g = .polygon_tag ∨ tag g = .linestring_tag)
    (hdim : g.dimension = 2) : equals E g g = .value true := by
  have hT : ∀ check : TrivialCheck, check.apply E g g = true :=
    fun check => trivial_check_of_refl E hmeasure check g g
  rcases g with ⟨d, s⟩
  simp only at hdim
  subst hdim
  cases s <;> simp only [tag, reduceCtorEq, false_or, or_false] at hkind <;>
    simp only [equals, concept.check_concepts_and_equal_dimensions, reverse_dispatch,
      dispatch.registry, dispatch.equals, tag, is_multi, Strategy.apply,
      if_true, Option.isNone_some, Bool.false_and, Bool.false_eq_true, if_false] <;>
    rw [equals_by_collection_self _ _ _ _ _ (hT _) hvector]

theorem straight_runs_redundant {G G' : List (Point Int)}
    (h : redundant_vertex_inserted G G') : straight_runs G' = straight_runs G := by
  rcases h with ⟨A, B, p, q, m, hm, rfl, rfl⟩ | ⟨A, B, p, rfl, rfl⟩
  · exact straight_runs_insert A B p q m hm
  · exact straight_runs_duplicate A B p

theorem equals_congr_of_collect_eq {α M V : Type} (E : Collaborators α M V)
    (hmeasure : ∀ a, E.measure_equals a a = true) (g g' h : Geometry α)
    (hdim : g.dimension = g'.dimension)
    (htag : tag g = tag g') (hpoint : tag g ≠ .point_tag) (hbox : tag g ≠ .box_tag)
    (hcollect : E.collect_vectors g' = E.collect_vectors g) :
    equals E g' h = equals E g h ∧ equals E h g' = equals E h g := by
  refine equals_congr E g g' h hdim htag hpoint hbox (fun check => ?_)
  simp only [equals_by_collection, trivial_check_of_refl E hmeasure, hcollect]
  exact ⟨trivial, trivial⟩

/-! ## Claims on the decomposition -/

/-- C13. Redundant-vertex invariance, for every `collect_vectors` that takes the directed
vectors of a ring or linestring from its straight runs and for reflexive comparisons: when
`G'` is `G` with a vertex inserted on the segment between two consecutive vertices, or with a
vertex written twice, `equals(G', H) = equals(G, H)` and `equals(H, G') = equals(H, G)` for
every geometry `H`, `G` and `G'` being both rings or both linestrings; and in dimension 2
`equals(G, G')` is `true`. -/
theorem redundant_vertex_invariance {M V : Type} (E : Collaborators Int M V)
    (ring_vectors linestring_vectors : List Run → List V) (other : Geometry Int → List V)
    (hcollect : E.collect_vectors
      = spec_collect_vectors ring_vectors linestring_vectors other)
    (hmeasure : ∀ a, E.measure_equals a a = true) (hvector : ∀ a, E.eq a a = true)
    (G G' : List (Point Int)) (hG : redundant_vertex_inserted G G') (d : Nat)
    (H : Geometry Int) :
    (equals E ⟨d, .ring G'⟩ H = equals E ⟨d, .ring G⟩ H
      ∧ equals E H ⟨d, .ring G'⟩ = equals E H ⟨d, .ring G⟩)
    ∧ (equals E ⟨d, .linestring G'⟩ H = equals E ⟨d, .linestring G⟩ H
      ∧ equals E H ⟨d, .linestring G'⟩ = equals E H ⟨d, .linestring G⟩)
    ∧ equals E ⟨2, .ring G⟩ ⟨2, .ring G'⟩ = .value true
    ∧ equals E ⟨2, .linestring G⟩ ⟨2, .linestring G'⟩ = .value true := by
  have hruns := straight_runs_redundant hG
  have hring : ∀ (n : Nat) (h : Geometry Int),
      equals E ⟨n, .ring G'⟩ h = equals E ⟨n, .ring G⟩ h
        ∧ equals E h ⟨n, .ring G'⟩ = equals E h ⟨n, .ring G⟩ := fun n h =>
    equals_congr_of_collect_eq E hmeasure ⟨n, .ring G⟩ ⟨n, .ring G'⟩ h rfl rfl
      (by simp [tag]) (by simp [tag]) (by simp [hcollect, spec_collect_vectors, hruns])
  have hline : ∀ (n : Nat) (h : Geometry Int),
      equals E ⟨n, .linestring G'⟩ h = equals E ⟨n, .linestring G⟩ h
        ∧ equals E h ⟨n, .linestring G'⟩ = equals E h ⟨n, .linestring G⟩ := fun n h =>
    equals_congr_of_collect_eq E hmeasure ⟨n, .linestring G⟩ ⟨n, .linestring G'⟩ h rfl rfl
      (by simp [tag]) (by simp [tag]) (by simp [hcollect, spec_collect_vectors, hruns])
  refine ⟨hring d H, hline d H, ?_, ?_⟩
  · rw [(hring 2 ⟨2, .ring G⟩).2]
    exact equals_collection_self E hmeasure hvector _ (Or.inl rfl) rfl
  · rw [(hline 2 ⟨2, .linestring G⟩).2]
    exact equals_collection_self E hmeasure hvector _ (Or.inr (Or.inr rfl)) rfl

/-- Witness for C13 on the pairs of the tests: the ring `(0 0,0 2,2 2,0 0)` and
`(0 0,0 2,2 2,1 1,0 0)`; `LINESTRING(1 1,3 3,2 5)` and `LINESTRING(1 1,2 2,3 3,2 5)`;
`LINESTRING(0 0,6 0)`, `LINESTRING(0 0,5 0,6 0)` and `LINESTRING(0 0,5 0,5 0,6 0)`. -/
theorem redundant_vertex_invariance_witness :
    redundant_vertex_inserted case_p1 [xy 0 0, xy 0 2, xy 2 2, xy 1 1, xy 0 0]
    ∧ equals run_collaborators ⟨2, .ring case_p1⟩
        ⟨2, .ring [xy 0 0, xy 0 2, xy 2 2, xy 1 1, xy 0 0]⟩ = .value true
    ∧ equals run_collaborators ⟨2, .linestring [xy 1 1, xy 3 3, xy 2 5]⟩
        ⟨2, .linestring [xy 1 1, xy 2 2, xy 3 3, xy 2 5]⟩ = .value true
    ∧ equals run_collaborators ⟨2, .linestring [xy 0 0, xy 5 0, xy 5 0, xy 6 0]⟩
        ⟨2, .linestring [xy 0 0, xy 6 0]⟩ = .value true := by
  have h1 : redundant_vertex_inserted case_p1 [xy 0 0, xy 0 2, xy 2 2, xy 1 1, xy 0 0] :=
    Or.inl ⟨[xy 0 0, xy 0 2], [], xy 2 2, xy 0 0, xy 1 1, by decide, rfl, rfl⟩
  have h2 : redundant_vertex_inserted [xy 1 1, xy 3 3, xy 2 5]
      [xy 1 1, xy 2 2, xy 3 3, xy 2 5] :=
    Or.inl ⟨[], [xy 2 5], xy 1 1, xy 3 3, xy 2 2, by decide, rfl, rfl⟩
  have h3 : redundant_vertex_inserted [xy 0 0, xy 6 0] [xy 0 0, xy 5 0, xy 6 0] :=
    Or.inl ⟨[], [], xy 0 0, xy 6 0, xy 5 0, by decide, rfl, rfl⟩
  have h4 : redundant_vertex_inserted [xy 0 0, xy 5 0, xy 6 0]
      [xy 0 0, xy 5 0, xy 5 0, xy 6 0] :=
    Or.inr ⟨[xy 0 0], [xy 6 0], xy 5 0, rfl, rfl⟩
  have w := fun G G' hG H =>
    redundant_vertex_invariance run_collaborators (List.map run_edge) (List.map run_edge)
      collect_edges rfl run_measure_equals_self run_eq_self G G' hG 2 H
  refine ⟨h1, (w _ _ h1 ⟨2, .ring case_p1⟩).2.2.1, (w _ _ h2 ⟨2, .ring case_p1⟩).2.2.2, ?_⟩
  have a := (w _ _ h4 ⟨2, .linestring [xy 0 0, xy 6 0]⟩).2.1.1
  have b := (w _ _ h3 ⟨2, .linestring [xy 0 0, xy 6 0]⟩).2.1.1
  have c := (w _ _ h3 ⟨2, .linestring [xy 0 0, xy 6 0]⟩).2.1.2
  have e := (w _ _ h3 ⟨2, .linestring [xy 0 0, xy 6 0]⟩).2.2.2
  rw [a, b, ← c]
  exact e

/-- C25. With a reflexive `math::equals`, `area_check::apply` and `length_check::apply`
answer `true` for every pair of geometries, and `equals_by_collection` with either check
gives, for every pair of geometries, what the vector-collection comparison without a
pre-check gives. -/
theorem trivial_checks_are_no_ops {G1 G2 M V : Type} (math_equals : M → M → Bool)
    (hrefl : ∀ a, math_equals a a = true)
    (area1 : G1 → M) (area2 : G2 → M) (length1 : G1 → M) (length2 : G2 → M)
    (collect1 : G1 → List V) (collect2 : G2 → List V) (lt eq : V → V → Bool)
    (g1 : G1) (g2 : G2) :
    area_check math_equals area1 area2 g1 g2 = true
    ∧ length_check math_equals length1 length2 g1 g2 = true
    ∧ equals_by_collection (area_check math_equals area1 area2) collect1 collect2 lt eq g1 g2
        = vector_collection_comparison collect1 collect2 lt eq g1 g2
    ∧ equals_by_collection (length_check math_equals length1 length2) collect1 collect2 lt eq
          g1 g2
        = vector_collection_comparison collect1 collect2 lt eq g1 g2 := by
  have key : ∀ T : G1 → G2 → Bool, T g1 g2 = true →
      equals_by_collection T collect1 collect2 lt eq g1 g2
        = vector_collection_comparison collect1 collect2 lt eq g1 g2 := by
    intro T hT
    unfold equals_by_collection vector_collection_comparison
    by_cases hlen : (collect1 g1).length = (collect2 g2).length
    · simp [hT, hlen, std_sort_length]
    · simp [hT, hlen]
  have ha : area_check math_equals area1 area2 g1 g2 = true := hrefl _
  have hl : length_check math_equals length1 length2 g1 g2 = true := hrefl _
  exact ⟨ha, hl, key _ ha, key _ hl⟩

/-- Witness for C25 on the rings `(0 0,0 2,2 2,0 0)` and `(0 0,0 4,4 4,0 0)`, with the exact
collaborators. -/
theorem trivial_checks_are_no_ops_witness :
    (∀ a, exact_collaborators.measure_equals a a = true)
    ∧ area_check exact_collaborators.measure_equals exact_area exact_area
        (⟨2, .ring case_p1⟩ : Geometry Int) (⟨2, .ring [xy 0 0, xy 0 4, xy 4 4, xy 0 0]⟩ :
          Geometry Int) = true
    ∧ equals_by_collection (area_check exact_collaborators.measure_equals exact_area exact_area)
        collect_edges collect_edges Edge.lt (fun a b => a == b)
        (⟨2, .ring case_p1⟩ : Geometry Int) (⟨2, .ring [xy 0 0, xy 0 4, xy 4 4, xy 0 0]⟩ :
          Geometry Int)
      = vector_collection_comparison collect_edges collect_edges Edge.lt (fun a b => a == b)
        (⟨2, .ring case_p1⟩ : Geometry Int) (⟨2, .ring [xy 0 0, xy 0 4, xy 4 4, xy 0 0]⟩ :
          Geometry Int) :=
  have h := trivial_checks_are_no_ops exact_collaborators.measure_equals
    exact_measure_equals_self exact_area exact_area exact_length exact_length
    collect_edges collect_edges Edge.lt (fun a b => a == b)
    (⟨2, .ring case_p1⟩ : Geometry Int) (⟨2, .ring [xy 0 0, xy 0 4, xy 4 4, xy 0 0]⟩ :
      Geometry Int)
  ⟨exact_measure_equals_self, h.1, h.2.2.1⟩

/-- C26. `equals_reversed::apply` calls `dispatch::equals` for the swapped tags on the
swapped arguments and nothing else; `dispatch::equals` returns without a further call; and a
call of the free function `equals` is over after at most three steps, with the outcome of
`equals` and with `equals_reversed` called at most once (once exactly when the dimension
counts agree and the pair is dispatched in reversed order). -/
theorem reversed_wrapper_applied_at_most_once {α M V : Type} (E : Collaborators α M V)
    (g1 g2 : Geometry α) :
    (∀ (t1 t2 : Tag) (m1 m2 : Bool) (N : Nat) (h1 h2 : Geometry α),
      Call.step E (.equals_reversed t1 t2 m1 m2 N h1 h2)
        = .inr (.dispatch_equals t2 t1 m2 m1 N h2 h1))
    ∧ (∀ (t1 t2 : Tag) (m1 m2 : Bool) (N : Nat) (h1 h2 : Geometry α),
      Call.step E (.dispatch_equals t1 t2 m1 m2 N h1 h2)
        = .inl (dispatch.equals E t1 t2 m1 m2 N h1 h2))
    ∧ ∃ swaps, Call.run E 3 (.equals g1 g2) = some (equals E g1 g2, swaps)
        ∧ swaps ≤ 1
        ∧ (swaps = 1 ↔ g1.dimension = g2.dimension ∧ reverse_dispatch g1 g2 = true) := by
  refine ⟨fun _ _ _ _ _ _ _ => rfl, fun _ _ _ _ _ _ _ => rfl, ?_⟩
  by_cases hdim : g1.dimension = g2.dimension
  · by_cases hrev : reverse_dispatch g1 g2 = true
    · refine ⟨1, ?_, le_refl 1, by simp [hdim, hrev]⟩
      simp [Call.run, Call.step, equals, concept.check_concepts_and_equal_dimensions, hdim,
        hrev, dispatch.equals_reversed]
    · refine ⟨0, ?_, Nat.zero_le 1, by simp [hrev]⟩
      simp [Call.run, Call.step, equals, concept.check_concepts_and_equal_dimensions, hdim,
        hrev]
  · refine ⟨0, ?_, Nat.zero_le 1, by simp [hdim]⟩
    simp [Call.run, Call.step, equals, concept.check_concepts_and_equal_dimensions, hdim]

/-- C27. When `operator<` is a strict weak ordering and `operator==` is its equivalence,
`equals_by_collection` gives the same result when either collected sequence is replaced by a
permutation of itself before the sort. -/
theorem equals_by_collection_depends_on_multisets {G1 G2 V : Type} (T : G1 → G2 → Bool)
    (collect1 collect1' : G1 → List V) (collect2 collect2' : G2 → List V)
    (lt eq : V → V → Bool) (horder : strict_weak_order lt eq) (g1 : G1) (g2 : G2)
    (h1 : (collect1' g1).Perm (collect1 g1)) (h2 : (collect2' g2).Perm (collect2 g2)) :
    equals_by_collection T collect1' collect2' lt eq g1 g2
      = equals_by_collection T collect1 collect2 lt eq g1 g2 := by
  rw [Bool.eq_iff_iff, equals_by_collection_eq_true, equals_by_collection_eq_true,
    h1.length_eq, h2.length_eq]
  have p1 := std_sort_perm_pointwise horder h1
  have p2 := std_sort_perm_pointwise horder h2
  constructor
  · rintro ⟨hT, hlen, hall⟩
    exact ⟨hT, hlen, forall₂_eq_trans horder _ _ _ (forall₂_eq_symm horder p1)
      (forall₂_eq_trans horder _ _ _ hall p2)⟩
  · rintro ⟨hT, hlen, hall⟩
    exact ⟨hT, hlen, forall₂_eq_trans horder _ _ _ p1
      (forall₂_eq_trans horder _ _ _ hall (forall₂_eq_symm horder p2))⟩

/-- Witness for C27: the edges of the ring `(0 0,0 2,2 2,0 0)`, collected in their order and
in the reversed order. -/
theorem equals_by_collection_depends_on_multisets_witness :
    strict_weak_order Edge.lt (fun a b => a == b)
    ∧ (edges case_p1).reverse.Perm (edges case_p1)
    ∧ equals_by_collection (fun _ _ => true) (fun g => (edges g).reverse) edges Edge.lt
        (fun a b => a == b) case_p1 case_p1
      = equals_by_collection (fun _ _ => true) edges edges Edge.lt
        (fun a b => a == b) case_p1 case_p1 :=
  ⟨edge_strict_weak_order, List.reverse_perm _,
    equals_by_collection_depends_on_multisets (fun _ _ => true)
      edges (fun g => (edges g).reverse) edges edges Edge.lt (fun a b => a == b)
      edge_strict_weak_order case_p1 case_p1 (List.reverse_perm _) (List.Perm.refl _)⟩

/-- C30. `operator>` on `projected_point_ax_result` holds exactly when the along-track
distance or the cross-track distance of the left operand exceeds that of the right one. It is
irreflexive and it is not asymmetric: `(atd 1, xtd 0)` and `(atd 0, xtd 1)` are each greater
than the other. -/
theorem operator_gt_is_not_asymmetric :
    (∀ (T : Type) [LinearOrder T]
        (left right : strategy.distance.detail.projected_point_ax_result T),
      left.operator_gt right = true ↔ left.atd > right.atd ∨ left.xtd > right.xtd)
    ∧ (∀ (T : Type) [LinearOrder T] (a : strategy.distance.detail.projected_point_ax_result T),
      a.operator_gt a = false)
    ∧ (⟨1, 0⟩ : strategy.distance.detail.projected_point_ax_result Int).operator_gt ⟨0, 1⟩
        = true
    ∧ (⟨0, 1⟩ : strategy.distance.detail.projected_point_ax_result Int).operator_gt ⟨1, 0⟩
        = true := by
  refine ⟨fun T _ left right => ?_, fun T _ a => ?_, by decide, by decide⟩
  · simp [strategy.distance.detail.projected_point_ax_result.operator_gt]
  · simp [strategy.distance.detail.projected_point_ax_result.operator_gt]

/-! ## Lemmas on the projected-point strategy -/

section projected_point

open strategy.distance.detail

variable {K : Type} [LinearOrderedField K]

theorem comparable_pythagoras_first (N : Nat) (p1 p2 : Point K) (t : K) :
    comparable_pythagoras N p1 (add_point p1 (multiply_value (subtract_point p2 p1) t))
      = t * t * dot_product N (subtract_point p2 p1) (subtract_point p2 p1) := by
  simp only [comparable_pythagoras, dot_product, add_point, multiply_value, subtract_point,
    Finset.mul_sum]
  exact Finset.sum_congr rfl (fun d _ => by ring)

theorem comparable_pythagoras_second (N : Nat) (p1 p2 : Point K) (t : K) :
    comparable_pythagoras N p2 (add_point p1 (multiply_value (subtract_point p2 p1) t))
      = (1 - t) * (1 - t) * dot_product N (subtract_point p2 p1) (subtract_point p2 p1) := by
  simp only [comparable_pythagoras, dot_product, add_point, multiply_value, subtract_point,
    Finset.mul_sum]
  exact Finset.sum_congr rfl (fun d _ => by ring)

theorem comparable_pythagoras_eq_zero_iff (N : Nat) (a b : Point K) :
    comparable_pythagoras N a b = 0 ↔ ∀ d, d < N → a d = b d := by
  unfold comparable_pythagoras
  rw [Finset.sum_eq_zero_iff_of_nonneg (fun d _ => mul_self_nonneg _)]
  constructor
  · intro h d hd
    have := h d (Finset.mem_range.2 hd)
    exact sub_eq_zero.1 (mul_self_eq_zero.1 this)
  · intro h d hd
    rw [h d (Finset.mem_range.1 hd)]
    simp

theorem dot_product_self_nonneg (N : Nat) (v : Point K) : 0 ≤ dot_product N v v :=
  Finset.sum_nonneg (fun d _ => mul_self_nonneg _)

theorem dot_product_projection (N : Nat) (p p1 p2 : Point K) (t : K) :
    dot_product N
        (subtract_point p (add_point p1 (multiply_value (subtract_point p2 p1) t)))
        (subtract_point p2 p1)
      = dot_product N (subtract_point p p1) (subtract_point p2 p1)
        - t * dot_product N (subtract_point p2 p1) (subtract_point p2 p1) := by
  simp only [dot_product, add_point, multiply_value, subtract_point,
    Finset.mul_sum, ← Finset.sum_sub_distrib]
  exact Finset.sum_congr rfl (fun d _ => by ring)


theorem projected_point_ax_apply_zero (N : Nat) (math_equals : K → K → Bool)
    (strategy_apply : Point K → Point K → K) (p p1 p2 : Point K)
    (h : math_equals (dot_product N (subtract_point p2 p1) (subtract_point p2 p1)) 0 = true) :
    projected_point_ax.apply N math_equals strategy_apply p p1 p2
      = some ⟨strategy_apply p p1, strategy_apply p p1⟩ := by
  simp [projected_point_ax.apply, h]

theorem projected_point_ax_apply_nonzero (N : Nat) (math_equals : K → K → Bool)
    (strategy_apply : Point K → Point K → K) (p p1 p2 : Point K)
    (h : math_equals (dot_product N (subtract_point p2 p1) (subtract_point p2 p1)) 0 = false)
    (hlen : dot_product N (subtract_point p2 p1) (subtract_point p2 p1) ≠ 0) :
    projected_point_ax.apply N math_equals strategy_apply p p1 p2
      = some ⟨if dot_product N (subtract_point p p1) (subtract_point p2 p1) ≤ 0 then
            strategy_apply p1 (projection N p p1 p2)
          else if dot_product N (subtract_point p2 p1) (subtract_point p2 p1)
              ≤ dot_product N (subtract_point p p1) (subtract_point p2 p1) then
            strategy_apply p2 (projection N p p1 p2)
          else 0,
        strategy_apply p (projection N p p1 p2)⟩ := by
  simp only [projected_point_ax.apply, h, divide, hlen, if_false, projection,
    Bool.false_eq_true]
  split_ifs <;> rfl

/-! ## Claims on the projected-point strategy -/

/-- C21. On a segment of zero length (`v·v = 0` for `v = p2 - p1`), with a `math::equals`
that holds of zero and zero, `projected_point_ax::apply` returns a result whose `atd` and `xtd`
both are the point-point distance from `p` to the endpoint `p1`. -/
theorem zero_length_segment_gives_endpoint_distance (N : Nat) (math_equals : K → K → Bool)
    (strategy_apply : Point K → Point K → K) (p p1 p2 : Point K)
    (hrefl : math_equals 0 0 = true)
    (hzero : dot_product N (subtract_point p2 p1) (subtract_point p2 p1) = 0) :
    ∃ r, projected_point_ax.apply N math_equals strategy_apply p p1 p2 = some r
      ∧ r.atd = strategy_apply p p1 ∧ r.xtd = strategy_apply p p1 := by
  refine ⟨_, projected_point_ax_apply_zero N math_equals strategy_apply p p1 p2 ?_, rfl, rfl⟩
  rw [hzero]
  exact hrefl

/-- Witness for C21: the point `(-3, 1)` and the segment from `(0, 0)` to `(0, 0)`, with the
squared distance on the rationals. -/
theorem zero_length_segment_gives_endpoint_distance_witness :
    ∃ r, projected_point_ax.apply 2 math_equals_field (comparable_pythagoras 2)
        (xy (-3 : ℚ) 1) (xy 0 0) (xy 0 0) = some r
      ∧ r.atd = 10 ∧ r.xtd = 10 := by
  have h := zero_length_segment_gives_endpoint_distance 2 math_equals_field
    (comparable_pythagoras 2) (xy (-3 : ℚ) 1) (xy 0 0) (xy 0 0)
    (by simp [math_equals_field])
    (by simp [dot_product, subtract_point, xy, Finset.sum_range_succ])
  have hd : comparable_pythagoras 2 (xy (-3 : ℚ) 1) (xy 0 0) = 10 := by
    norm_num [comparable_pythagoras, xy, Finset.sum_range_succ]
  rw [hd] at h
  exact h

theorem ne_zero_of_math_equals_false (math_equals : K → K → Bool) (a : K)
    (hrefl : math_equals 0 0 = true) (hne : math_equals a 0 = false) : a ≠ 0 := by
  intro h0
  rw [h0, hrefl] at hne
  exact Bool.noConfusion hne

/-- C22, as stated, fails: non-zero length is not enough for the branch on `c1` and `c2` to
be reached. With the tolerance comparator and the squared distance on the rationals, the
segment from `(0, 0)` to `(1e-9, 0)` has `c2 = 1e-18`, which is not zero and is equal to zero
within the tolerance; for `p = (5e-10, 1)` the projection lies on the segment
(`0 <= c1 <= c2`), and `apply` takes the zero-length return and gives an `atd` that is not
zero. -/
theorem short_segment_atd_is_not_zero :
    dot_product 2 (subtract_point short_p2 short_p1) (subtract_point short_p2 short_p1) ≠ 0
    ∧ 0 ≤ dot_product 2 (subtract_point short_p_above short_p1)
        (subtract_point short_p2 short_p1)
    ∧ dot_product 2 (subtract_point short_p_above short_p1) (subtract_point short_p2 short_p1)
        ≤ dot_product 2 (subtract_point short_p2 short_p1) (subtract_point short_p2 short_p1)
    ∧ ∃ r, projected_point_ax.apply 2 (math_equals_tolerance double_epsilon)
          (comparable_pythagoras 2) short_p_above short_p1 short_p2 = some r
        ∧ r.atd ≠ 0 := by
  refine ⟨?_, ?_, ?_, _, projected_point_ax_apply_zero 2 _ _ _ _ _ ?_, ?_⟩
  · norm_num [dot_product, subtract_point, short_p1, short_p2, xy, Finset.sum_range_succ]
  · norm_num [dot_product, subtract_point, short_p1, short_p2, short_p_above, xy,
      Finset.sum_range_succ]
  · norm_num [dot_product, subtract_point, short_p1, short_p2, short_p_above, xy,
      Finset.sum_range_succ]
  · norm_num [math_equals_tolerance, double_epsilon, dot_product, subtract_point, short_p1,
      short_p2, xy, Finset.sum_range_succ, abs_le]
  · norm_num [comparable_pythagoras, short_p1, short_p_above, xy, Finset.sum_range_succ]

/-- C22, amended. In exact arithmetic, with a `math::equals` that holds of zero and zero and
a point-point distance that is zero exactly for coinciding points: on every segment that
`apply` does not take for one of zero length (`math::equals(c2, 0)` is false), the returned
`atd` is `0` if and only if `0 <= c1 <= c2`, that is if and only if the parameter `c1 / c2`
of the projection lies in `[0, 1]`. -/
theorem atd_zero_iff_projection_on_segment (N : Nat) (math_equals : K → K → Bool)
    (strategy_apply : Point K → Point K → K) (p p1 p2 : Point K)
    (hrefl : math_equals 0 0 = true)
    (hstrategy : ∀ a b, strategy_apply a b = 0 ↔ ∀ d, d < N → a d = b d)
    (hne : math_equals (dot_product N (subtract_point p2 p1) (subtract_point p2 p1)) 0
      = false) :
    ∃ r, projected_point_ax.apply N math_equals strategy_apply p p1 p2 = some r
      ∧ (r.atd = 0 ↔
          0 ≤ dot_product N (subtract_point p p1) (subtract_point p2 p1)
          ∧ dot_product N (subtract_point p p1) (subtract_point p2 p1)
            ≤ dot_product N (subtract_point p2 p1) (subtract_point p2 p1))
      ∧ (r.atd = 0 ↔
          0 ≤ dot_product N (subtract_point p p1) (subtract_point p2 p1)
              / dot_product N (subtract_point p2 p1) (subtract_point p2 p1)
          ∧ dot_product N (subtract_point p p1) (subtract_point p2 p1)
              / dot_product N (subtract_point p2 p1) (subtract_point p2 p1) ≤ 1) := by
  have hlen : dot_product N (subtract_point p2 p1) (subtract_point p2 p1) ≠ 0 :=
    ne_zero_of_math_equals_false math_equals _ hrefl hne
  have hpos : 0 < dot_product N (subtract_point p2 p1) (subtract_point p2 p1) :=
    lt_of_le_of_ne (dot_product_self_nonneg N _) (Ne.symm hlen)
  have hfirst : strategy_apply p1 (projection N p p1 p2) = 0
      ↔ dot_product N (subtract_point p p1) (subtract_point p2 p1) = 0 := by
    rw [hstrategy, ← comparable_pythagoras_eq_zero_iff, projection,
      comparable_pythagoras_first]
    simp [hlen]
  have hsecond : strategy_apply p2 (projection N p p1 p2) = 0
      ↔ dot_product N (subtract_point p p1) (subtract_point p2 p1)
        = dot_product N (subtract_point p2 p1) (subtract_point p2 p1) := by
    rw [hstrategy, ← comparable_pythagoras_eq_zero_iff, projection,
      comparable_pythagoras_second]
    simp only [mul_eq_zero, or_self, hlen, or_false, sub_eq_zero]
    rw [eq_comm, div_eq_one_iff_eq hlen]
  have hmain : ∀ r : projected_point_ax_result K,
      projected_point_ax.apply N math_equals strategy_apply p p1 p2 = some r →
      (r.atd = 0 ↔
          0 ≤ dot_product N (subtract_point p p1) (subtract_point p2 p1)
          ∧ dot_product N (subtract_point p p1) (subtract_point p2 p1)
            ≤ dot_product N (subtract_point p2 p1) (subtract_point p2 p1)) := by
    intro r hr
    rw [projected_point_ax_apply_nonzero N math_equals strategy_apply p p1 p2 hne hlen] at hr
    cases Option.some.inj hr
    dsimp only
    by_cases h1 : dot_product N (subtract_point p p1) (subtract_point p2 p1) ≤ 0
    · rw [if_pos h1, hfirst]
      constructor
      · intro h0
        rw [h0]
        exact ⟨le_refl _, le_of_lt hpos⟩
      · intro h
        exact le_antisymm h1 h.1
    · rw [if_neg h1]
      by_cases h2 : dot_product N (subtract_point p2 p1) (subtract_point p2 p1)
          ≤ dot_product N (subtract_point p p1) (subtract_point p2 p1)
      · rw [if_pos h2, hsecond]
        constructor
        · intro h0
          rw [h0]
          exact ⟨le_of_lt hpos, le_refl _⟩
        · intro h
          exact le_antisymm h.2 h2
      · rw [if_neg h2]
        exact ⟨fun _ => ⟨le_of_lt (not_le.1 h1), le_of_lt (not_le.1 h2)⟩, fun _ => rfl⟩
  refine ⟨_, projected_point_ax_apply_nonzero N math_equals strategy_apply p p1 p2 hne hlen,
    hmain _ (projected_point_ax_apply_nonzero N math_equals strategy_apply p p1 p2 hne hlen),
    ?_⟩
  rw [hmain _ (projected_point_ax_apply_nonzero N math_equals strategy_apply p p1 p2 hne hlen),
    div_nonneg_iff, div_le_one hpos]
  constructor
  · rintro ⟨h0, h1⟩
    exact ⟨Or.inl ⟨h0, le_of_lt hpos⟩, h1⟩
  · rintro ⟨h0 | h0, h1⟩
    · exact ⟨h0.1, h1⟩
    · exact absurd h0.2 (not_le.2 hpos)

/-- Witness for C22: the point `(1, 1)` and the segment from `(0, 0)` to `(2, 0)`, with the
tolerance comparator and the squared distance on the rationals: `c2 = 4` is not equal to zero
within the tolerance, and `c1 = 2` lies between `0` and `c2`. -/
theorem atd_zero_iff_projection_on_segment_witness :
    ∃ r, projected_point_ax.apply 2 (math_equals_tolerance double_epsilon)
        (comparable_pythagoras 2) (xy (1 : ℚ) 1) (xy 0 0) (xy 2 0) = some r
      ∧ r.atd = 0 := by
  obtain ⟨r, hr, h, _⟩ := atd_zero_iff_projection_on_segment 2
    (math_equals_tolerance double_epsilon)
    (comparable_pythagoras 2) (xy (1 : ℚ) 1) (xy 0 0) (xy 2 0)
    (by norm_num [math_equals_tolerance, double_epsilon])
    (fun a b => comparable_pythagoras_eq_zero_iff 2 a b)
    (by norm_num [math_equals_tolerance, double_epsilon, dot_product, subtract_point, xy,
      Finset.sum_range_succ, abs_le])
  refine ⟨r, hr, h.2 ?_⟩
  norm_num [dot_product, subtract_point, xy, Finset.sum_range_succ]

/-- C23, as stated, fails: on the segment from `(0, 0)` to `(1e-9, 0)`, of non-zero length,
with the tolerance comparator and the squared distance on the rationals, `apply` takes the
zero-length return for `p = (5e-10, 1)`: the `xtd` is the distance from `p` to `p1`, which
is not the distance from `p` to its projection `q`. -/
theorem short_segment_xtd_is_not_the_distance_to_the_projection :
    dot_product 2 (subtract_point short_p2 short_p1) (subtract_point short_p2 short_p1) ≠ 0
    ∧ ∃ r, projected_point_ax.apply 2 (math_equals_tolerance double_epsilon)
          (comparable_pythagoras 2) short_p_above short_p1 short_p2 = some r
        ∧ r.xtd = comparable_pythagoras 2 short_p_above short_p1
        ∧ r.xtd ≠ comparable_pythagoras 2 short_p_above
            (add_point short_p1 (multiply_value (subtract_point short_p2 short_p1)
              (dot_product 2 (subtract_point short_p_above short_p1)
                  (subtract_point short_p2 short_p1)
                / dot_product 2 (subtract_point short_p2 short_p1)
                  (subtract_point short_p2 short_p1)))) := by
  refine ⟨?_, _, projected_point_ax_apply_zero 2 _ _ _ _ _ ?_, rfl, ?_⟩
  · norm_num [dot_product, subtract_point, short_p1, short_p2, xy, Finset.sum_range_succ]
  · norm_num [math_equals_tolerance, double_epsilon, dot_product, subtract_point, short_p1,
      short_p2, xy, Finset.sum_range_succ, abs_le]
  · norm_num [comparable_pythagoras, dot_product, add_point, multiply_value, subtract_point,
      short_p1, short_p2, short_p_above, xy, Finset.sum_range_succ]

/-- C23, amended. In exact arithmetic, with a `math::equals` that holds of zero and zero: on
every segment that `apply` does not take for one of zero length (`math::equals(c2, 0)` is
false), the returned `xtd` is the point-point distance between `p` and
`q = p1 + ((p - p1)·v / (v·v)) v` with `v = p2 - p1`, and `q` is the orthogonal projection of
`p` on the line through `p1` and `p2`: `(p - q)·v = 0`. -/
theorem xtd_is_distance_to_orthogonal_projection (N : Nat) (math_equals : K → K → Bool)
    (strategy_apply : Point K → Point K → K) (p p1 p2 : Point K)
    (hrefl : math_equals 0 0 = true)
    (hne : math_equals (dot_product N (subtract_point p2 p1) (subtract_point p2 p1)) 0
      = false) :
    ∃ r, projected_point_ax.apply N math_equals strategy_apply p p1 p2 = some r
      ∧ r.xtd = strategy_apply p
          (add_point p1 (multiply_value (subtract_point p2 p1)
            (dot_product N (subtract_point p p1) (subtract_point p2 p1)
              / dot_product N (subtract_point p2 p1) (subtract_point p2 p1))))
      ∧ dot_product N
          (subtract_point p
            (add_point p1 (multiply_value (subtract_point p2 p1)
              (dot_product N (subtract_point p p1) (subtract_point p2 p1)
                / dot_product N (subtract_point p2 p1) (subtract_point p2 p1)))))
          (subtract_point p2 p1) = 0 := by
  have hlen : dot_product N (subtract_point p2 p1) (subtract_point p2 p1) ≠ 0 :=
    ne_zero_of_math_equals_false math_equals _ hrefl hne
  refine ⟨_, projected_point_ax_apply_nonzero N math_equals strategy_apply p p1 p2 hne hlen,
    rfl, ?_⟩
  rw [dot_product_projection, div_mul_cancel₀ _ hlen, sub_self]

/-- Witness for C23: the point `(1, 1)` and the segment from `(0, 0)` to `(2, 0)`, with the
tolerance comparator and the squared distance on the rationals: the projection is `(1, 0)`
and the `xtd` is `1`. -/
theorem xtd_is_distance_to_orthogonal_projection_witness :
    ∃ r, projected_point_ax.apply 2 (math_equals_tolerance double_epsilon)
        (comparable_pythagoras 2) (xy (1 : ℚ) 1) (xy 0 0) (xy 2 0) = some r
      ∧ r.xtd = 1 := by
  obtain ⟨r, hr, hx, _⟩ := xtd_is_distance_to_orthogonal_projection 2
    (math_equals_tolerance double_epsilon)
    (comparable_pythagoras 2) (xy (1 : ℚ) 1) (xy 0 0) (xy 2 0)
    (by norm_num [math_equals_tolerance, double_epsilon])
    (by norm_num [math_equals_tolerance, double_epsilon, dot_product, subtract_point, xy,
      Finset.sum_range_succ, abs_le])
  refine ⟨r, hr, ?_⟩
  rw [hx]
  norm_num [comparable_pythagoras, dot_product, add_point, multiply_value, subtract_point, xy,
    Finset.sum_range_succ]

/-- C24, as stated, fails: on the segment from `(0, 0)` to `(1e-9, 0)`, of non-zero length,
with the tolerance comparator and the squared distance on the rationals, the projection
`(1, 0)` of `p = (1, 1)` lies past `p2` (`c1 / c2 > 1`), and `apply` takes the zero-length
return: the `atd` is the distance from `p` to `p1`, which is neither the distance from `p2`
to the projection nor the smaller of the distances from the two endpoints to it. -/
theorem short_segment_atd_is_not_the_distance_to_an_endpoint :
    dot_product 2 (subtract_point short_p2 short_p1) (subtract_point short_p2 short_p1) ≠ 0
    ∧ 1 < dot_product 2 (subtract_point short_p_past short_p1)
          (subtract_point short_p2 short_p1)
        / dot_product 2 (subtract_point short_p2 short_p1) (subtract_point short_p2 short_p1)
    ∧ ∃ r, projected_point_ax.apply 2 (math_equals_tolerance double_epsilon)
          (comparable_pythagoras 2) short_p_past short_p1 short_p2 = some r
        ∧ r.atd = comparable_pythagoras 2 short_p_past short_p1
        ∧ r.atd ≠ comparable_pythagoras 2 short_p2 (projection 2 short_p_past short_p1 short_p2)
        ∧ r.atd ≠ min
            (comparable_pythagoras 2 short_p1 (projection 2 short_p_past short_p1 short_p2))
            (comparable_pythagoras 2 short_p2 (projection 2 short_p_past short_p1 short_p2)) := by
  have hq1 : comparable_pythagoras 2 short_p1 (projection 2 short_p_past short_p1 short_p2)
      = 1 := by
    norm_num [projection, comparable_pythagoras, dot_product, add_point, multiply_value,
      subtract_point, short_p1, short_p2, short_p_past, xy, Finset.sum_range_succ]
  have hq2 : comparable_pythagoras 2 short_p2 (projection 2 short_p_past short_p1 short_p2)
      = (1 - 1 / 10 ^ 9) * (1 - 1 / 10 ^ 9) := by
    norm_num [projection, comparable_pythagoras, dot_product, add_point, multiply_value,
      subtract_point, short_p1, short_p2, short_p_past, xy, Finset.sum_range_succ]
  have hd : comparable_pythagoras 2 short_p_past short_p1 = 2 := by
    norm_num [comparable_pythagoras, short_p1, short_p_past, xy, Finset.sum_range_succ]
  refine ⟨?_, ?_, _, projected_point_ax_apply_zero 2 _ _ _ _ _ ?_, rfl, ?_, ?_⟩
  · norm_num [dot_product, subtract_point, short_p1, short_p2, xy, Finset.sum_range_succ]
  · norm_num [dot_product, subtract_point, short_p1, short_p2, short_p_past, xy,
      Finset.sum_range_succ]
  · norm_num [math_equals_tolerance, double_epsilon, dot_product, subtract_point, short_p1,
      short_p2, xy, Finset.sum_range_succ, abs_le]
  · dsimp only
    rw [hd, hq2]
    norm_num
  · dsimp only
    rw [hd, hq1, hq2, min_eq_right (by norm_num)]
    norm_num

/-- C24, amended. In exact arithmetic, with a `math::equals` that holds of zero and zero and
a point-point distance that grows with the squared Euclidean distance: on every segment that
`apply` does not take for one of zero length (`math::equals(c2, 0)` is false), when the
projection `q` lies before `p1` (parameter `c1 / c2 < 0`) the returned `atd` is the distance
from `p1` to `q`, when it lies past `p2` (parameter `c1 / c2 > 1`) the `atd` is the distance
from `p2` to `q`, and in both cases the `atd` is the smaller of the two distances. -/
theorem atd_is_distance_to_nearest_endpoint (N : Nat) (math_equals : K → K → Bool)
    (strategy_apply : Point K → Point K → K) (p p1 p2 : Point K)
    (hrefl : math_equals 0 0 = true)
    (hmono : ∀ a b c d, comparable_pythagoras N a b ≤ comparable_pythagoras N c d →
      strategy_apply a b ≤ strategy_apply c d)
    (hne : math_equals (dot_product N (subtract_point p2 p1) (subtract_point p2 p1)) 0
      = false) :
    ∃ r, projected_point_ax.apply N math_equals strategy_apply p p1 p2 = some r
      ∧ (dot_product N (subtract_point p p1) (subtract_point p2 p1)
            / dot_product N (subtract_point p2 p1) (subtract_point p2 p1) < 0 →
          r.atd = strategy_apply p1 (projection N p p1 p2)
          ∧ r.atd = min (strategy_apply p1 (projection N p p1 p2))
              (strategy_apply p2 (projection N p p1 p2)))
      ∧ (1 < dot_product N (subtract_point p p1) (subtract_point p2 p1)
            / dot_product N (subtract_point p2 p1) (subtract_point p2 p1) →
          r.atd = strategy_apply p2 (projection N p p1 p2)
          ∧ r.atd = min (strategy_apply p1 (projection N p p1 p2))
              (strategy_apply p2 (projection N p p1 p2))) := by
  have hlen : dot_product N (subtract_point p2 p1) (subtract_point p2 p1) ≠ 0 :=
    ne_zero_of_math_equals_false math_equals _ hrefl hne
  have hpos : 0 < dot_product N (subtract_point p2 p1) (subtract_point p2 p1) :=
    lt_of_le_of_ne (dot_product_self_nonneg N _) (Ne.symm hlen)
  refine ⟨_, projected_point_ax_apply_nonzero N math_equals strategy_apply p p1 p2 hne hlen,
    ?_, ?_⟩
  · intro hb
    have h1 : dot_product N (subtract_point p p1) (subtract_point p2 p1) ≤ 0 := by
      rcases div_neg_iff.1 hb with h | h
      · exact absurd h.2 (not_lt.2 (le_of_lt hpos))
      · exact le_of_lt h.1
    have hle : strategy_apply p1 (projection N p p1 p2)
        ≤ strategy_apply p2 (projection N p p1 p2) := by
      apply hmono
      rw [projection, comparable_pythagoras_first, comparable_pythagoras_second]
      apply mul_le_mul_of_nonneg_right _ (le_of_lt hpos)
      nlinarith
    dsimp only
    rw [if_pos h1, min_eq_left hle]
    exact ⟨rfl, rfl⟩
  · intro hb
    have h2 : dot_product N (subtract_point p2 p1) (subtract_point p2 p1)
        < dot_product N (subtract_point p p1) (subtract_point p2 p1) := by
      rw [lt_div_iff₀ hpos, one_mul] at hb
      exact hb
    have h1 : ¬ dot_product N (subtract_point p p1) (subtract_point p2 p1) ≤ 0 :=
      not_le.2 (lt_trans hpos h2)
    have hle : strategy_apply p2 (projection N p p1 p2)
        ≤ strategy_apply p1 (projection N p p1 p2) := by
      apply hmono
      rw [projection, comparable_pythagoras_first, comparable_pythagoras_second]
      apply mul_le_mul_of_nonneg_right _ (le_of_lt hpos)
      nlinarith
    dsimp only
    rw [if_neg h1, if_pos (le_of_lt h2), min_eq_right hle]
    exact ⟨rfl, rfl⟩

/-- Witness for C24: the point `(-3, 1)` and the segment from `(0, 0)` to `(2, 0)`, with the
tolerance comparator and the squared distance on the rationals: the projection `(-3, 0)` lies
before `(0, 0)`, at squared distance `9`. -/
theorem atd_is_distance_to_nearest_endpoint_witness :
    ∃ r, projected_point_ax.apply 2 (math_equals_tolerance double_epsilon)
        (comparable_pythagoras 2) (xy (-3 : ℚ) 1) (xy 0 0) (xy 2 0) = some r
      ∧ r.atd = 9 := by
  obtain ⟨r, hr, h, _⟩ := atd_is_distance_to_nearest_endpoint 2
    (math_equals_tolerance double_epsilon)
    (comparable_pythagoras 2) (xy (-3 : ℚ) 1) (xy 0 0) (xy 2 0)
    (by norm_num [math_equals_tolerance, double_epsilon])
    (fun a b c d h => h)
    (by norm_num [math_equals_tolerance, double_epsilon, dot_product, subtract_point, xy,
      Finset.sum_range_succ, abs_le])
  refine ⟨r, hr, ?_⟩
  rw [(h (by norm_num [dot_product, subtract_point, xy, Finset.sum_range_succ])).1]
  norm_num [projection, comparable_pythagoras, dot_product, add_point, multiply_value,
    subtract_point, xy, Finset.sum_range_succ]

/-- C28. With a `math::equals` that holds of zero and zero, `projected_point_ax::apply`
never divides by zero: it returns a result for every input, and for a segment of zero length
(`c2 = 0`) the result is the one of the early return, taken before the quotient `c1 / c2`. -/
theorem division_by_zero_is_not_reachable (N : Nat) (math_equals : K → K → Bool)
    (strategy_apply : Point K → Point K → K) (p p1 p2 : Point K)
    (hrefl : math_equals 0 0 = true) :
    (projected_point_ax.apply N math_equals strategy_apply p p1 p2).isSome = true
      ∧ (dot_product N (subtract_point p2 p1) (subtract_point p2 p1) = 0 →
          projected_point_ax.apply N math_equals strategy_apply p p1 p2
            = some ⟨strategy_apply p p1, strategy_apply p p1⟩) := by
  constructor
  · cases hm : math_equals (dot_product N (subtract_point p2 p1) (subtract_point p2 p1)) 0
    · have hlen : dot_product N (subtract_point p2 p1) (subtract_point p2 p1) ≠ 0 := by
        intro h0
        rw [h0, hrefl] at hm
        exact Bool.noConfusion hm
      rw [projected_point_ax_apply_nonzero N math_equals strategy_apply p p1 p2 hm hlen]
      rfl
    · rw [projected_point_ax_apply_zero N math_equals strategy_apply p p1 p2 hm]
      rfl
  · intro h0
    apply projected_point_ax_apply_zero
    rw [h0]
    exact hrefl

/-- Witness for C28: the point `(-3, 1)` and the segment from `(0, 0)` to `(0, 0)`, with the
squared distance on the rationals. -/
theorem division_by_zero_is_not_reachable_witness :
    (projected_point_ax.apply 2 math_equals_field (comparable_pythagoras 2)
        (xy (-3 : ℚ) 1) (xy 0 0) (xy 0 0)).isSome = true :=
  (division_by_zero_is_not_reachable 2 math_equals_field (comparable_pythagoras 2)
    (xy (-3 : ℚ) 1) (xy 0 0) (xy 0 0) (by simp [math_equals_field])).1

end projected_point

end BoostGeometry
